import Mathlib

/-!
Verification development for the graph-trajectories Lorcana rules engine.

The Python source is shallowly embedded: the attributed state multigraph
becomes an association list of node records plus an ordered edge list,
numeric node attributes that the source stores as stringified ints are
modeled as `Int` (every read composes `int` with `str`, an identity),
and attributes the source compares as raw strings (`zone`, `exerted`,
`game_over`, ...) stay `String`.  The card database is out of scope of
the engine (a read-only external input); the engine fails fast on names
missing from it, so it is modeled as a total map `String → CardData` and
every state considered below only mentions names inside the map.
-/

namespace GraphTraj

/-! ### Ordering of strings by code points

Python compares strings lexicographically by code points; the engine
sorts action edges by tuples of strings.  Mathlib's `String` order does
not reduce in the kernel, so we define a structural comparison on the
underlying character lists.
-/

/-- Lexicographic three-way comparison of character lists by code point. -/
def charsCmp : List Char → List Char → Ordering
  | [], [] => .eq
  | [], _ :: _ => .lt
  | _ :: _, [] => .gt
  | a :: as, b :: bs =>
    if a.toNat < b.toNat then .lt
    else if b.toNat < a.toNat then .gt
    else charsCmp as bs

/-- Three-way comparison of strings, matching the Python string order. -/
def strCmp (a b : String) : Ordering :=
  charsCmp a.data b.data

theorem charsCmp_self (l : List Char) : charsCmp l l = .eq := by
  induction l with
  | nil => rfl
  | cons a as ih => simp [charsCmp, ih]

theorem char_eq_of_toNat_eq {x y : Char} (h : x.toNat = y.toNat) : x = y :=
  Char.eq_of_val_eq (UInt32.toNat.inj h)

theorem charsCmp_eq_iff {a b : List Char} : charsCmp a b = .eq ↔ a = b := by
  induction a generalizing b with
  | nil => cases b <;> simp [charsCmp]
  | cons x xs ih =>
    cases b with
    | nil => simp [charsCmp]
    | cons y ys =>
      by_cases h1 : x.toNat < y.toNat
      · constructor
        · intro h
          simp [charsCmp, h1] at h
        · intro h
          injection h with h3 h4
          subst h3
          omega
      · by_cases h2 : y.toNat < x.toNat
        · constructor
          · intro h
            simp [charsCmp, h1, h2] at h
          · intro h
            injection h with h3 h4
            subst h3
            omega
        · have hxy : x = y := char_eq_of_toNat_eq (by omega)
          subst hxy
          simp [charsCmp, h1, h2, ih]

theorem charsCmp_swap (a b : List Char) : charsCmp a b = (charsCmp b a).swap := by
  induction a generalizing b with
  | nil => cases b <;> simp [charsCmp, Ordering.swap]
  | cons x xs ih =>
    cases b with
    | nil => simp [charsCmp, Ordering.swap]
    | cons y ys =>
      by_cases h1 : x.toNat < y.toNat
      · have h2 : ¬ y.toNat < x.toNat := by omega
        simp [charsCmp, h1, h2, Ordering.swap]
      · by_cases h2 : y.toNat < x.toNat
        · simp [charsCmp, h1, h2, Ordering.swap]
        · simp [charsCmp, h1, h2, ih]

theorem charsCmp_lt_trans {a b c : List Char} :
    charsCmp a b = .lt → charsCmp b c = .lt → charsCmp a c = .lt := by
  induction a generalizing b c with
  | nil =>
    intro h1 h2
    cases b with
    | nil => exact h2
    | cons y ys =>
      cases c with
      | nil => simp [charsCmp] at h2
      | cons z zs => rfl
  | cons x xs ih =>
    intro h1 h2
    cases b with
    | nil => simp [charsCmp] at h1
    | cons y ys =>
      cases c with
      | nil => simp [charsCmp] at h2
      | cons z zs =>
        simp only [charsCmp] at h1 h2 ⊢
        by_cases hxy : x.toNat < y.toNat
        · by_cases hyz : y.toNat < z.toNat
          · have hxz : x.toNat < z.toNat := by omega
            simp [hxz]
          · by_cases hzy : z.toNat < y.toNat
            · simp [hxy, hyz, hzy] at h2
            · have hyz2 : y.toNat = z.toNat := by omega
              have hxz : x.toNat < z.toNat := by omega
              simp [hxz]
        · by_cases hyx : y.toNat < x.toNat
          · simp [hxy, hyx] at h1
          · have hxy2 : x.toNat = y.toNat := by omega
            by_cases hyz : y.toNat < z.toNat
            · have hxz : x.toNat < z.toNat := by omega
              simp [hxz]
            · by_cases hzy : z.toNat < y.toNat
              · simp [hyz, hzy] at h2
              · have hxz1 : ¬ x.toNat < z.toNat := by omega
                have hxz2 : ¬ z.toNat < x.toNat := by omega
                simp [hxy, hyx] at h1
                simp [hyz, hzy] at h2
                simp [hxz1, hxz2]
                exact ih h1 h2

theorem strCmp_self (s : String) : strCmp s s = .eq := charsCmp_self s.data

theorem strCmp_eq_iff {a b : String} : strCmp a b = .eq ↔ a = b := by
  unfold strCmp
  rw [charsCmp_eq_iff]
  constructor
  · intro h
    cases a
    cases b
    exact congrArg String.mk h
  · intro h
    rw [h]

theorem strCmp_swap (a b : String) : strCmp a b = (strCmp b a).swap :=
  charsCmp_swap a.data b.data

theorem strCmp_lt_trans {a b c : String} :
    strCmp a b = .lt → strCmp b c = .lt → strCmp a c = .lt :=
  charsCmp_lt_trans

/-! ### Deterministic base-36 action ids (`compute.py _to_base36`)

The source loops dividing by 36 and collecting digit characters, then
reverses; the fuel argument only bounds the loop and never runs out
because a positive number has at most `n` base-36 digits.
-/

def base36Chars : List Char := "0123456789abcdefghijklmnopqrstuvwxyz".data

def toBase36Core : Nat → Nat → List Char
  | 0, _ => []
  | fuel + 1, n =>
    if n = 0 then []
    else base36Chars.getD (n % 36) '0' :: toBase36Core fuel (n / 36)

def toBase36 (n : Nat) : String :=
  if n = 0 then "0" else String.mk (toBase36Core n n).reverse

/-! ### The state graph (`lib/core/graph.py`, networkx MultiDiGraph)

Nodes are an insertion-ordered association list from id to an attribute
record; edges are an insertion-ordered list.  Attribute records list
every attribute key the engine reads or writes; `none` models an absent
key.  Numeric attributes are `Int` (the source stores `str(int)` and
reads `int(str)`).  The quote-stripping performed by the `get_node_attr`
and `get_edge_attr` helpers is the identity on in-memory states (quotes
only appear after a DOT round trip), so it is not modeled.
-/

structure Node where
  ntype : String := ""
  label : Option String := none
  zone : Option String := none
  exerted : Option String := none
  damage : Option Int := none
  entered_play : Option Int := none
  turn : Option Int := none
  game_over : Option String := none
  winner : Option String := none
  lore : Option Int := none
  ink_drops : Option Int := none
  ink_total : Option Int := none
  ink_available : Option Int := none
  step : Option String := none
  player : Option String := none
  card_id : Option String := none
deriving DecidableEq

structure Edge where
  src : String
  dst : String
  label : Option String := none
  action_type : Option String := none
  action_id : Option String := none
  description : Option String := none
  extra : List (String × String) := []
deriving DecidableEq

structure Graph where
  nodes : List (String × Node) := []
  edges : List Edge := []
deriving DecidableEq

def Graph.getNode (G : Graph) (id : String) : Option Node :=
  (G.nodes.find? (fun p => p.1 == id)).map Prod.snd

def Graph.hasNode (G : Graph) (id : String) : Bool :=
  (G.getNode id).isSome

/-- Models `G.add_node`.  networkx merges attribute dicts when the node
already exists; every creation site in the engine uses an id that is
fresh (ability ids are chosen unused, card ids come off the deck), where
adding is an append. -/
def Graph.addNode (G : Graph) (id : String) (n : Node) : Graph :=
  if G.hasNode id then
    { G with nodes := G.nodes.map (fun p => if p.1 == id then (id, n) else p) }
  else
    { G with nodes := G.nodes ++ [(id, n)] }

/-- Models an in-place attribute write `G.nodes[id][attr] = value`.  The
source raises `KeyError` on a missing node; every state a claim below
quantifies over contains the written node, where this total version
agrees with the source. -/
def Graph.updateNode (G : Graph) (id : String) (f : Node → Node) : Graph :=
  { G with nodes := G.nodes.map (fun p => if p.1 == id then (p.1, f p.2) else p) }

def Graph.addEdge (G : Graph) (e : Edge) : Graph :=
  { G with edges := G.edges ++ [e] }

/-- Models `get_node_attr(G, id, attr, default)` for string attributes. -/
def nodeStrAttr (G : Graph) (id : String) (get : Node → Option String) (d : String) : String :=
  match G.getNode id with
  | some n => (get n).getD d
  | none => d

/-- Models `int(get_node_attr(G, id, attr, default))` for numeric attributes. -/
def nodeIntAttr (G : Graph) (id : String) (get : Node → Option Int) (d : Int) : Int :=
  match G.getNode id with
  | some n => (get n).getD d
  | none => d

/-- Models `edges_by_label` from `lib/core/graph.py`. -/
def edgesByLabel (G : Graph) (lbl : String) : List Edge :=
  G.edges.filter (fun e => e.label == some lbl)

/-- Python truthiness of `data.get(key)` for an optional string attribute:
the key must be present and its value nonempty. -/
def truthyOpt : Option String → Bool
  | some s => s != ""
  | none => false

/-- Models `can_edges` from `lib/core/graph.py`: all edges whose
`action_type` attribute is present and truthy. -/
def canEdges (G : Graph) : List Edge :=
  G.edges.filter (fun e => truthyOpt e.action_type)

/-- Removes the first edge satisfying `p`; models `G.remove_edge(u, v, key)`
applied to the edge found as `edges_by_label(G, lbl)[0]`. -/
def removeFirstEdge (p : Edge → Bool) : List Edge → List Edge
  | [] => []
  | e :: es => if p e then es else e :: removeFirstEdge p es

/-! ### Card database records (`lib/lorcana/cards.py`) -/

structure CardData where
  id : String := ""
  cost : Int := 0
  ctype : String := ""
  strength : Option Int := none
  willpower : Option Int := none
  lore : Int := 0
  inkwell : Bool := false
  abilities : List (Option String) := []
deriving DecidableEq

/-- The card database, an external read-only input of the engine (spec
section 1), as a total map; see the module comment. -/
def CardDB : Type := String → CardData

/-! ### Helper functions (`lib/lorcana/helpers.py`) -/

structure ActionEdge where
  src : String
  dst : String
  action_type : String
  description : String
  metadata : Option (List (String × Bool)) := none
deriving DecidableEq

def get_player_step (player step : String) : String :=
  "step." ++ player ++ "." ++ step

structure GameCtx where
  player : String
  opponent : String
  current_turn : Int
deriving DecidableEq

def get_game_context (G : Graph) : Option GameCtx :=
  match edgesByLabel G "current_turn" with
  | [] => none
  | e :: _ =>
    some { player := e.dst
           opponent := if e.dst == "p1" then "p2" else "p1"
           current_turn := nodeIntAttr G "game" Node.turn 0 }

def get_card_data (db : CardDB) (G : Graph) (card_node : String) : CardData :=
  db (nodeStrAttr G card_node Node.label "")

/-- Models Python `s.startswith(pre)` structurally on the code points. -/
def strStartsWith (s pre : String) : Bool :=
  pre.data.isPrefixOf s.data

def cards_in_zone (G : Graph) (player zone : String) : List String :=
  (G.nodes.filter
    (fun p => strStartsWith p.1 (player ++ ".") && p.2.zone == some zone)).map Prod.fst

def has_keyword (G : Graph) (card_node keyword : String) : Bool :=
  G.edges.any (fun e => e.dst == card_node && e.label == some keyword)

def card_data_has_keyword (cd : CardData) (keyword : String) : Bool :=
  cd.abilities.any (fun a => a == some keyword)

/-- Modelled from the spec: `has_edge` is imported from
`lib/lorcana/helpers.py` by the quest mechanic but is missing from that
file in the snapshot; spec section 4.4.3 blocks questing for a character
with an incoming `cant_quest` edge, so the helper reports whether any
edge with the given label points at the node (the in-edge counterpart of
`has_keyword`). -/
def has_edge (G : Graph) (node lbl : String) : Bool :=
  G.edges.any (fun e => e.dst == node && e.label == some lbl)

/-! ### Pure game state (`lib/lorcana/state.py`) -/

structure LorcanaState where
  graph : Graph
  deck1_ids : List String
  deck2_ids : List String
deriving DecidableEq

/-- Models `card_id.rsplit(".", 1)[0]`: everything before the last dot,
or the whole string when it contains no dot. -/
def rsplitDotHead (s : String) : String :=
  let parts := s.data.splitOn '.'
  if parts.length ≤ 1 then s else String.mk (List.intercalate ['.'] parts.dropLast)

/-- Models `LorcanaState._create_card_node`.  The `if not card_data`
fail-fast check disappears under the total card database map. -/
def create_card_node (db : CardDB) (G : Graph) (card_id : String) (player : Nat) : Graph :=
  let base_name := rsplitDotHead card_id
  let card_data := db base_name
  let node_id := "p" ++ toString player ++ "." ++ card_id
  G.addNode node_id
    { ntype := "Card"
      card_id := some card_data.id
      exerted := some "0"
      damage := some 0
      label := some base_name
      zone := some "hand" }

def LorcanaState.draw (s : LorcanaState) (db : CardDB) (player : Nat) (count : Nat) : LorcanaState :=
  let deck_ids := if player = 1 then s.deck1_ids else s.deck2_ids
  let g := (deck_ids.take count).foldl (fun g cid => create_card_node db g cid player) s.graph
  let remaining := deck_ids.drop count
  if player = 1 then { s with graph := g, deck1_ids := remaining }
  else { s with graph := g, deck2_ids := remaining }

def LorcanaState.exert (s : LorcanaState) (card_node : String) : LorcanaState :=
  { s with graph := s.graph.updateNode card_node (fun n => { n with exerted := some "1" }) }

def LorcanaState.ready (s : LorcanaState) (card_node : String) : LorcanaState :=
  { s with graph := s.graph.updateNode card_node (fun n => { n with exerted := some "0" }) }

def LorcanaState.add_lore (s : LorcanaState) (player : String) (amount : Int) : LorcanaState :=
  let current := nodeIntAttr s.graph player Node.lore 0
  let new_lore := current + amount
  let g := s.graph.updateNode player (fun n => { n with lore := some new_lore })
  if new_lore ≥ 20 then
    { s with graph :=
      (g.updateNode "game" (fun n => { n with winner := some player, game_over := some "1" })) }
  else { s with graph := g }

def LorcanaState.move_card (s : LorcanaState) (card_node zone : String) : LorcanaState :=
  { s with graph := s.graph.updateNode card_node (fun n => { n with zone := some zone }) }

def LorcanaState.damage_card (s : LorcanaState) (card_node : String) (amount : Int) : LorcanaState :=
  let current := nodeIntAttr s.graph card_node Node.damage 0
  { s with graph :=
      (s.graph.updateNode card_node (fun n => { n with damage := some (current + amount) })) }

/-! ### Stat helpers (`lib/lorcana/cards.py`) -/

def get_strength (db : CardDB) (s : LorcanaState) (card_node : String) : Int :=
  max 0 ((get_card_data db s.graph card_node).strength.getD 0)

def get_willpower (db : CardDB) (s : LorcanaState) (card_node : String) : Int :=
  max 0 ((get_card_data db s.graph card_node).willpower.getD 0)

/-! ### Ability nodes (`lib/lorcana/abilities.py`) -/

/-- Models the `while` search of `_next_ability_seq`; the fuel only
bounds the loop and is large enough that a free sequence number is
always found before it runs out. -/
def nextAbilitySeqCore (G : Graph) (pre : String) : Nat → Nat → Nat
  | 0, seq => seq
  | fuel + 1, seq =>
    if G.hasNode (pre ++ toString seq) then nextAbilitySeqCore G pre fuel (seq + 1)
    else seq

def next_ability_seq (G : Graph) (keyword : String) (turn : Int) : Nat :=
  nextAbilitySeqCore G (keyword ++ ".t" ++ toString turn ++ ".") (G.nodes.length + 1) 1

/-- Models Python `keyword.lower()` for the ASCII keyword constants. -/
def strLower (s : String) : String :=
  String.mk (s.data.map (fun c =>
    if 'A' ≤ c && c ≤ 'Z' then Char.ofNat (c.toNat + 32) else c))

def create_ability (G : Graph) (card_node keyword : String) (turn : Int) : Graph :=
  let keyword_lower := strLower keyword
  let seq := next_ability_seq G keyword_lower turn
  let ability_id := keyword_lower ++ ".t" ++ toString turn ++ "." ++ toString seq
  let G := G.addNode ability_id { ntype := "ability" }
  let G := G.addEdge { src := ability_id, dst := card_node, label := some keyword }
  G.addEdge { src := ability_id, dst := card_node, label := some "source" }

/-- Creates ability nodes for printed keywords on a card entering play
(`create_printed_abilities`).  The source dispatches only on the
`Rush` and `Evasive` keywords. -/
def create_printed_abilities (G : Graph) (card_node : String) (card_data : CardData)
    (turn : Int) : Graph :=
  card_data.abilities.foldl
    (fun g keyword =>
      if keyword == some "Rush" then create_ability g card_node "rush" turn
      else if keyword == some "Evasive" then create_ability g card_node "evasive" turn
      else g)
    G

/-! ### Turn mechanic (`lib/lorcana/mechanics/turn.py`)

The turn module looks edges up by the uppercase labels
`"CURRENT_TURN"` / `"CURRENT_STEP"` and emits action type `"CAN_PASS"`,
unlike the lowercase constants used by the other modules; the model
keeps those strings exactly as written. -/

def compute_can_pass (G : Graph) : List ActionEdge :=
  let ctx := get_game_context G
  match edgesByLabel G "CURRENT_STEP", ctx with
  | [], _ => []
  | _, none => []
  | e :: _, some ctx =>
    if nodeStrAttr G e.dst Node.step "" == "main" then
      [{ src := ctx.player, dst := "game", action_type := "CAN_PASS", description := "end" }]
    else []

def move_to_step (s : LorcanaState) (step_node : String) : LorcanaState :=
  let edges :=
    match edgesByLabel s.graph "CURRENT_STEP" with
    | [] => s.graph.edges
    | _ :: _ => removeFirstEdge (fun ed => ed.label == some "CURRENT_STEP") s.graph.edges
  { s with graph :=
      (Graph.addEdge { s.graph with edges := edges }
        { src := "game", dst := step_node, label := some "CURRENT_STEP" }) }

def end_step (s : LorcanaState) (_player : String) : LorcanaState := s

def ready_step (s : LorcanaState) (player : String) : LorcanaState :=
  { s with graph :=
      ((cards_in_zone s.graph player "play").foldl
        (fun g c => g.updateNode c (fun n => { n with exerted := some "0" })) s.graph) }

def set_step (s : LorcanaState) (player : String) : LorcanaState :=
  let g := s.graph.updateNode player (fun n => { n with ink_drops := some 1 })
  let ink_total := nodeIntAttr g player Node.ink_total 0
  { s with graph := g.updateNode player (fun n => { n with ink_available := some ink_total }) }

def draw_step (db : CardDB) (s : LorcanaState) (player : String) : LorcanaState :=
  let turn := nodeIntAttr s.graph "game" Node.turn 0
  if player == "p1" && turn == 1 then s
  else
    let player_num : Nat := if player == "p1" then 1 else 2
    let deck := if player_num = 1 then s.deck1_ids else s.deck2_ids
    if deck.length = 0 then
      let other_player := if player == "p1" then "p2" else "p1"
      { s with graph :=
          (s.graph.updateNode "game"
            (fun n => { n with winner := some other_player, game_over := some "1" })) }
    else s.draw db player_num 1

def advance_turn (db : CardDB) (s : LorcanaState) : LorcanaState :=
  match edgesByLabel s.graph "CURRENT_TURN" with
  | [] => s
  | e :: _ =>
    let game := e.src
    let current_player := e.dst
    let other_player := if current_player == "p1" then "p2" else "p1"
    let s := move_to_step s (get_player_step current_player "end")
    let s := end_step s current_player
    let g := { s.graph with
               edges := removeFirstEdge (fun ed => ed.label == some "CURRENT_TURN") s.graph.edges }
    let g := g.addEdge { src := game, dst := other_player, label := some "CURRENT_TURN" }
    let turn := nodeIntAttr g "game" Node.turn 0
    let g := g.updateNode "game" (fun n => { n with turn := some (turn + 1) })
    let s := { s with graph := g }
    let s := move_to_step s (get_player_step other_player "ready")
    let s := ready_step s other_player
    let s := move_to_step s (get_player_step other_player "set")
    let s := set_step s other_player
    let s := move_to_step s (get_player_step other_player "draw")
    let s := draw_step db s other_player
    move_to_step s (get_player_step other_player "main")

/-! ### Ink mechanic (`lib/lorcana/mechanics/ink.py`) -/

def compute_can_ink (db : CardDB) (G : Graph) : List ActionEdge :=
  match get_game_context G with
  | none => []
  | some ctx =>
    let ink_drops := nodeIntAttr G ctx.player Node.ink_drops 0
    if ink_drops ≤ 0 then []
    else
      (cards_in_zone G ctx.player "hand").filterMap (fun card_node =>
        if (get_card_data db G card_node).inkwell then
          some { src := card_node, dst := ctx.player, action_type := "can_ink"
                 description := "ink:" ++ card_node }
        else none)

def execute_ink (_db : CardDB) (s : LorcanaState) (from_node : String) : LorcanaState :=
  let s := s.move_card from_node "ink"
  match get_game_context s.graph with
  | none => s
  | some ctx =>
    let ink_drops := nodeIntAttr s.graph ctx.player Node.ink_drops 1
    let g := s.graph.updateNode ctx.player (fun n => { n with ink_drops := some (ink_drops - 1) })
    let ink_total := nodeIntAttr g ctx.player Node.ink_total 0
    let g := g.updateNode ctx.player (fun n => { n with ink_total := some (ink_total + 1) })
    let ink_available := nodeIntAttr g ctx.player Node.ink_available 0
    let g := g.updateNode ctx.player (fun n => { n with ink_available := some (ink_available + 1) })
    { s with graph := g }

/-! ### Play mechanic (`lib/lorcana/mechanics/play.py`) -/

def compute_can_play (db : CardDB) (G : Graph) : List ActionEdge :=
  match get_game_context G with
  | none => []
  | some ctx =>
    let ink_available := nodeIntAttr G ctx.player Node.ink_available 0
    (cards_in_zone G ctx.player "hand").flatMap (fun card_node =>
      let card_data := get_card_data db G card_node
      let cost := card_data.cost
      if ink_available ≥ cost then
        { src := card_node, dst := ctx.player, action_type := "can_play"
          description := "play:" ++ card_node } ::
        (if card_data_has_keyword card_data "Bodyguard" then
          [{ src := card_node, dst := ctx.player, action_type := "can_play"
             description := "play:" ++ card_node ++ ":exerted"
             metadata := some [("exerted", true)] }]
        else [])
      else [])

/-- Looks a key up in collected action metadata (string attribute values
coming off an action edge; Python tests them for truthiness). -/
def lookupMeta (md : List (String × String)) (k : String) : Option String :=
  (md.find? (fun p => p.1 == k)).map Prod.snd

def execute_play (db : CardDB) (s : LorcanaState) (from_node _to_node : String)
    (metadata : List (String × String)) : LorcanaState :=
  let card_data := get_card_data db s.graph from_node
  match get_game_context s.graph with
  | none => s
  | some ctx =>
    let zone := if card_data.ctype == "action" then "discard" else "play"
    let s := s.move_card from_node zone
    let cost := card_data.cost
    let ink_available := nodeIntAttr s.graph ctx.player Node.ink_available 0
    let s := { s with graph :=
      (s.graph.updateNode ctx.player (fun n => { n with ink_available := some (ink_available - cost) })) }
    if zone == "play" then
      let g := s.graph.updateNode from_node
        (fun n => { n with entered_play := some ctx.current_turn
                           exerted := some (if truthyOpt (lookupMeta metadata "exerted") then "1" else "0") })
      { s with graph := create_printed_abilities g from_node card_data ctx.current_turn }
    else s

/-! ### Quest mechanic (`lib/lorcana/mechanics/quest.py`) -/

def compute_can_quest (db : CardDB) (G : Graph) : List ActionEdge :=
  match get_game_context G with
  | none => []
  | some ctx =>
    (cards_in_zone G ctx.player "play").filterMap (fun card_node =>
      let card_data := get_card_data db G card_node
      if card_data.ctype != "character" then none
      else if nodeStrAttr G card_node Node.exerted "0" == "1" then none
      else if nodeIntAttr G card_node Node.entered_play (-1) == ctx.current_turn then none
      else if has_edge G card_node "cant_quest" then none
      else some { src := card_node, dst := ctx.player, action_type := "can_quest"
                  description := "quest:" ++ card_node })

def execute_quest (db : CardDB) (s : LorcanaState) (from_node to_node : String) : LorcanaState :=
  let s := { s with graph :=
    (s.graph.updateNode from_node (fun n => { n with exerted := some "1" })) }
  let lore_value := (get_card_data db s.graph from_node).lore
  s.add_lore to_node lore_value

/-! ### Challenge mechanic (`lib/lorcana/mechanics/challenge.py`) -/

def compute_can_challenge (db : CardDB) (G : Graph) : List ActionEdge :=
  match get_game_context G with
  | none => []
  | some ctx =>
    let cards_in_play := cards_in_zone G ctx.player "play"
    let opponent_cards := cards_in_zone G ctx.opponent "play"
    cards_in_play.flatMap (fun challenger =>
      let card_data := get_card_data db G challenger
      if card_data.ctype != "character" then []
      else if nodeStrAttr G challenger Node.exerted "0" == "1" then []
      else
        let entered_play := nodeIntAttr G challenger Node.entered_play (-1)
        let is_drying := entered_play == ctx.current_turn
        if is_drying && !(has_keyword G challenger "rush") then []
        else
          opponent_cards.filterMap (fun defender =>
            let defender_data := get_card_data db G defender
            if defender_data.ctype != "character" then none
            else if nodeStrAttr G defender Node.exerted "0" != "1" then none
            else if has_keyword G defender "evasive" &&
                    (!(has_keyword G challenger "evasive") && !(has_keyword G challenger "alert")) then
              none
            else
              some { src := challenger, dst := defender, action_type := "can_challenge"
                     description := "challenge:" ++ challenger ++ "->" ++ defender }))

def execute_challenge (db : CardDB) (s : LorcanaState) (attacker defender : String) : LorcanaState :=
  let s := { s with graph :=
    (s.graph.updateNode attacker (fun n => { n with exerted := some "1" })) }
  let attacker_strength := get_strength db s attacker
  let defender_strength := get_strength db s defender
  let s := s.damage_card defender attacker_strength
  s.damage_card attacker defender_strength

/-! ### State-based effects (`lib/lorcana/state_based_effects.py`) -/

def cards_to_banish (db : CardDB) (s : LorcanaState) : List String :=
  ["p1", "p2"].flatMap (fun player =>
    (cards_in_zone s.graph player "play").filter (fun card_node =>
      (get_card_data db s.graph card_node).ctype == "character" &&
      (let damage := nodeIntAttr s.graph card_node Node.damage 0
       !(damage == 0) && damage ≥ get_willpower db s card_node)))

def check_and_banish_damaged_characters (db : CardDB) (s : LorcanaState) : LorcanaState :=
  (cards_to_banish db s).foldl (fun st c => st.move_card c "discard") s

def check_state_based_effects (db : CardDB) (s : LorcanaState) : LorcanaState :=
  check_and_banish_damaged_characters db s

/-! ### Action computation (`lib/lorcana/compute.py`)

Python `sorted` is a stable sort by the key tuple
`(action_type, src, dst)` compared lexicographically; insertion sort
with the corresponding total preorder is that stable sort.
-/

def edge_sort_key (e : ActionEdge) : String × String × String :=
  (e.action_type, e.src, e.dst)

def keyCmp (a b : String × String × String) : Ordering :=
  (strCmp a.1 b.1).then ((strCmp a.2.1 b.2.1).then (strCmp a.2.2 b.2.2))

def actionEdgeLe (a b : ActionEdge) : Prop :=
  keyCmp (edge_sort_key a) (edge_sort_key b) ≠ .gt

instance actionEdgeLe.instDecidableRel : DecidableRel actionEdgeLe := fun a b =>
  inferInstanceAs (Decidable (keyCmp (edge_sort_key a) (edge_sort_key b) ≠ .gt))

def clear_can_edges (G : Graph) : Graph :=
  { G with edges := G.edges.filter (fun e => !(truthyOpt e.action_type)) }

def enumerate_all_edges (db : CardDB) (G : Graph) : List ActionEdge :=
  compute_can_pass G ++ compute_can_ink db G ++ compute_can_play db G ++
    compute_can_quest db G ++ compute_can_challenge db G

/-- Models `_add_can_edge`; note that it receives no metadata, so the
`metadata` field of an enumerated `ActionEdge` is dropped here exactly
as in the source. -/
def add_can_edge (G : Graph) (src dst action_type action_id description : String) : Graph :=
  G.addEdge { src := src, dst := dst, action_type := some action_type
              action_id := some action_id, description := some description }

def compute_all (db : CardDB) (G : Graph) : Graph :=
  let G := clear_can_edges G
  if ((G.getNode "game").bind Node.game_over).getD "0" == "1" then G
  else
    let sorted_edges := List.insertionSort actionEdgeLe (enumerate_all_edges db G)
    sorted_edges.enum.foldl
      (fun g p => add_can_edge g p.2.src p.2.dst p.2.action_type (toBase36 p.1) p.2.description)
      G

/-! ### Action execution (`lib/lorcana/execute.py`) -/

def execute_action (db : CardDB) (s : LorcanaState) (action_type from_node to_node : String)
    (metadata : List (String × String)) : LorcanaState :=
  let s :=
    if action_type == "can_pass" then advance_turn db s
    else if action_type == "can_ink" then execute_ink db s from_node
    else if action_type == "can_play" then execute_play db s from_node to_node metadata
    else if action_type == "can_quest" then execute_quest db s from_node to_node
    else if action_type == "can_challenge" then execute_challenge db s from_node to_node
    else s
  let s := check_state_based_effects db s
  { s with graph := compute_all db s.graph }

/-! ### Outcome backpropagation (`lib/core/outcome.py`)

Filesystem paths are modeled as their slash-separated segment lists;
the segments the engine produces (store keys, seed names, base-36
action ids) are nonempty and slash-free, where `rsplit("/", 1)` is
exactly (dropLast, getLast) and `"/" in current` is having at least two
segments.  The fuel of the loop is the segment count, which the loop
(dropping one segment per iteration) never exhausts.
-/

def splitSlash (s : String) : List String :=
  (s.data.splitOn '/').map String.mk

def joinSlash (parts : List String) : String :=
  String.mk (List.intercalate ['/'] (parts.map String.data))

/-- Models the `while` loop of `backpropagate`, returning the
`(parent, suffix)` pairs passed to the `on_level` callback in call
order. -/
def backpropCore (stop_at : List String) :
    Nat → List String → List String → List (List String × String)
  | 0, _, _ => []
  | fuel + 1, current, action_path =>
    if current = stop_at ∨ current.length < 2 then []
    else
      let parent := current.dropLast
      let action := current.getLastD ""
      if parent = [""] then []
      else
        let new_path := action :: action_path
        let suffix := String.join new_path
        (parent, suffix) ::
          (if parent = stop_at then [] else backpropCore stop_at fuel parent new_path)

def backpropagate (winning_path stop_at : List String) : List (List String × String) :=
  backpropCore stop_at winning_path.length winning_path []

def isLowerAlnumChar (c : Char) : Bool :=
  ('a' ≤ c && c ≤ 'z') || ('0' ≤ c && c ≤ '9')

/-- Models the anchored regex `[a-z0-9]{7}\.[a-z0-9]{7}\.[a-z]{2}` of
`find_seed_path`. -/
def matchesHandSpecSeed (s : String) : Bool :=
  let cs := s.data
  cs.length == 18 && (cs.take 7).all isLowerAlnumChar && cs.getD 7 ' ' == '.' &&
    ((cs.drop 8).take 7).all isLowerAlnumChar && cs.getD 15 ' ' == '.' &&
    (cs.drop 16).all (fun c => 'a' ≤ c && c ≤ 'z')

/-- Models the anchored regex `[a-z0-9]{8}` of `find_seed_path`. -/
def matchesSimpleSeed (s : String) : Bool :=
  s.data.length == 8 && s.data.all isLowerAlnumChar

def findSeedCore : List String → List String → Option (List String)
  | _, [] => none
  | acc, p :: rest =>
    if matchesHandSpecSeed p || matchesSimpleSeed p then some (acc ++ [p])
    else findSeedCore (acc ++ [p]) rest

def find_seed_path (parts : List String) : Option (List String) :=
  findSeedCore [] parts

/-! ### Outcome records (`save_outcome` in the stores) -/

structure OutcomeData where
  winner : Option String := none
  p1_lore : Int := 0
  p2_lore : Int := 0
deriving DecidableEq

structure Outcomes where
  outcomes : List (String × Int × Int) := []
  p1_wins : List String := []
  p2_wins : List String := []
deriving DecidableEq

/-- Models one `save_outcome(path, suffix, data)` update of the
aggregated stats at a parent state (identical in `FileStore` and
`MemoryStore`): the per-action key is `suffix[0]`, the FIRST CHARACTER
of the suffix, and the whole suffix is appended to the winner list. -/
def Outcomes.update (o : Outcomes) (suffix winner : String) : Outcomes :=
  let first_action :=
    match suffix.data with
    | [] => ""
    | c :: _ => String.mk [c]
  let o :=
    if (o.outcomes.find? (fun p => p.1 == first_action)).isSome then o
    else { o with outcomes := o.outcomes ++ [(first_action, (0, 0))] }
  if winner == "p1" then
    { o with
        outcomes := o.outcomes.map
          (fun p => if p.1 == first_action then (p.1, (p.2.1 + 1, p.2.2)) else p)
        p1_wins := o.p1_wins ++ [suffix] }
  else if winner == "p2" then
    { o with
        outcomes := o.outcomes.map
          (fun p => if p.1 == first_action then (p.1, (p.2.1, p.2.2 + 1)) else p)
        p2_wins := o.p2_wins ++ [suffix] }
  else o

/-- Python dict write: overwrite in place, else append (insertion order). -/
def updateAssoc {α β : Type} [BEq α] (l : List (α × β)) (k : α) (v : β) : List (α × β) :=
  if (l.find? (fun p => p.1 == k)).isSome then
    l.map (fun p => if p.1 == k then (k, v) else p)
  else l ++ [(k, v)]

def lookupAssoc {α β : Type} [BEq α] (l : List (α × β)) (k : α) : Option β :=
  (l.find? (fun p => p.1 == k)).map Prod.snd

/-! ### Stored action views (`lib/core/navigation.py format_actions`) -/

structure ActionView where
  id : String
  action_type : String
  src : String
  dst : String
  description : String
deriving DecidableEq

def canEdgeLe (a b : Edge) : Prop :=
  keyCmp (a.action_type.getD "", a.src, a.dst) (b.action_type.getD "", b.src, b.dst) ≠ .gt

instance canEdgeLe.instDecidableRel : DecidableRel canEdgeLe := fun a b =>
  inferInstanceAs
    (Decidable (keyCmp (a.action_type.getD "", a.src, a.dst)
      (b.action_type.getD "", b.src, b.dst) ≠ .gt))

def format_actions (G : Graph) : List ActionView :=
  (List.insertionSort canEdgeLe (canEdges G)).map (fun e =>
    { id := e.action_id.getD "", action_type := e.action_type.getD ""
      src := e.src, dst := e.dst
      description := e.description.getD (strLower (e.action_type.getD "")) })

/-! ### In-memory store (`lib/core/memory_store.py`)

Deep copies on load and save are the identity in the pure model. -/

structure MemoryStore where
  states : List (String × LorcanaState) := []
  actions : List (String × List ActionView) := []
  outcomes : List (String × OutcomeData) := []
  outcome_refs : List (String × Outcomes) := []
deriving DecidableEq

def MemoryStore.load_state (st : MemoryStore) (path : String) : Option LorcanaState :=
  lookupAssoc st.states path

def MemoryStore.save_state (st : MemoryStore) (state : LorcanaState) (path : String) :
    MemoryStore :=
  { st with
      states := updateAssoc st.states path state
      actions := updateAssoc st.actions path (format_actions state.graph) }

def MemoryStore.save_outcome (st : MemoryStore) (path : String) (suffix : Option String)
    (data : OutcomeData) : MemoryStore :=
  match suffix with
  | none => { st with outcomes := updateAssoc st.outcomes path data }
  | some sfx =>
    let cur := (lookupAssoc st.outcome_refs path).getD {}
    { st with outcome_refs :=
        updateAssoc st.outcome_refs path (cur.update sfx (data.winner.getD "")) }

/-! ### Game session (`lib/lorcana/game_api.py`) -/

structure GameSession where
  store : MemoryStore
  root_key : String
  current_key : String
deriving DecidableEq

def GameSession.new (initial_state : LorcanaState) (root_key : String) : GameSession :=
  { store := MemoryStore.save_state {} initial_state root_key
    root_key := root_key
    current_key := root_key }

/-- The outcome record built by both apply paths when the resulting
state is terminal. -/
def outcomeDataOf (G : Graph) : OutcomeData :=
  { winner := (G.getNode "game").bind Node.winner
    p1_lore := nodeIntAttr G "p1" Node.lore 0
    p2_lore := nodeIntAttr G "p2" Node.lore 0 }

/-- Models `GameSession.apply_action`.  `none` is the `KeyError` raised
when the current key has no stored state; note `execute_action` is
invoked WITHOUT the metadata of the matched edge. -/
def GameSession.apply_action (db : CardDB) (sess : GameSession) (action_id : String) :
    Option (Bool × GameSession) :=
  match sess.store.load_state sess.current_key with
  | none => none
  | some state =>
    match (canEdges state.graph).find? (fun e => e.action_id.getD "" == action_id) with
    | none => some (false, sess)
    | some e =>
      let new_state := execute_action db state (e.action_type.getD "") e.src e.dst []
      let new_key := sess.current_key ++ "/" ++ action_id
      let store := sess.store.save_state new_state new_key
      let store :=
        if nodeStrAttr new_state.graph "game" Node.game_over "0" == "1" then
          let outcome_data := outcomeDataOf new_state.graph
          let store := store.save_outcome new_key none outcome_data
          match find_seed_path (splitSlash new_key) with
          | none => store
          | some seed_path =>
            (backpropagate (splitSlash new_key) seed_path).foldl
              (fun st pr => st.save_outcome (joinSlash pr.1) (some pr.2) outcome_data) store
        else store
      some (true, { sess with store := store, current_key := new_key })

/-! ### File-backed store (`lib/core/file_store.py`)

Paths are segment lists.  Only the artifacts the claims reason about
are tracked (states, action views, the action descriptions used for
diff headers, and the outcome files); the DOT serialization, deck
symlink compression and diff bodies are byte-level formats out of the
claims. -/

structure FileStore where
  states : List (List String × LorcanaState) := []
  actions : List (List String × List ActionView) := []
  action_taken : List (List String × String) := []
  outcomes : List (List String × OutcomeData) := []
  outcome_refs : List (List String × Outcomes) := []
deriving DecidableEq

def FileStore.state_exists (fs : FileStore) (path : List String) : Bool :=
  (fs.states.find? (fun p => p.1 == path)).isSome

def FileStore.load_state (fs : FileStore) (path : List String) : Option LorcanaState :=
  lookupAssoc fs.states path

def FileStore.save_state (fs : FileStore) (state : LorcanaState) (path : List String)
    (taken : String) : FileStore :=
  { fs with
      states := updateAssoc fs.states path state
      actions := updateAssoc fs.actions path (format_actions state.graph)
      action_taken := updateAssoc fs.action_taken path taken }

def FileStore.save_outcome (fs : FileStore) (path : List String) (suffix : Option String)
    (data : OutcomeData) : FileStore :=
  match suffix with
  | none => { fs with outcomes := updateAssoc fs.outcomes path data }
  | some sfx =>
    let cur := (lookupAssoc fs.outcome_refs path).getD {}
    { fs with outcome_refs :=
        updateAssoc fs.outcome_refs path (cur.update sfx (data.winner.getD "")) }

/-- Models the metadata collection of `apply_action_at_path`: every edge
attribute except `action_type`, `action_id` and `description`. -/
def collect_metadata (e : Edge) : List (String × String) :=
  (match e.label with
   | some l => [("label", l)]
   | none => []) ++ e.extra

/-- Models `apply_action_at_path`; `Except.error` is the raised
exception.  The fuel is the recursion depth bound `path.length + 1`,
which the parent recursion (dropping one segment per call) never
exhausts. -/
def applyAtPathCore (db : CardDB) : Nat → FileStore → List String → Except String FileStore
  | 0, fs, _ => .ok fs
  | fuel + 1, fs, path =>
    if fs.state_exists path then .ok fs
    else
      let parent_path := path.dropLast
      let ensured : Except String FileStore :=
        if parent_path ≠ path ∧ ¬ fs.state_exists parent_path then
          applyAtPathCore db fuel fs parent_path
        else .ok fs
      match ensured with
      | .error msg => .error msg
      | .ok fs =>
        let action_id := path.getLastD ""
        match fs.load_state parent_path with
        | none => .error ("No game.dot at " ++ joinSlash parent_path)
        | some parent =>
          match (canEdges parent.graph).find? (fun e => e.action_id.getD "" == action_id) with
          | none => .error ("Action " ++ action_id ++ " not found in parent state")
          | some e =>
            let action_desc := e.description.getD (e.action_type.getD "" ++ ":" ++ e.src)
            let metadata := collect_metadata e
            let new_state := execute_action db parent (e.action_type.getD "") e.src e.dst metadata
            let fs := fs.save_state new_state path action_desc
            let fs :=
              if nodeStrAttr new_state.graph "game" Node.game_over "0" == "1" then
                let outcome_data := outcomeDataOf new_state.graph
                let fs := fs.save_outcome path none outcome_data
                match find_seed_path path with
                | none => fs
                | some seed_path =>
                  (backpropagate path seed_path).foldl
                    (fun st pr => st.save_outcome pr.1 (some pr.2) outcome_data) fs
              else fs
            .ok fs

def apply_action_at_path (db : CardDB) (fs : FileStore) (path : List String) :
    Except String FileStore :=
  applyAtPathCore db (path.length + 1) fs path

/-! ### Concrete fixtures

A small card database and game states mirroring the repository test
fixtures (`tests/lorcana/conftest.py` and the scenario tests), used to
evaluate the embedded functions at concrete inputs.
-/

def testDb : CardDB := fun name =>
  if name == "stitch_rock_star" then
    { id := "c1", cost := 6, ctype := "character", strength := some 3, willpower := some 5
      lore := 1, inkwell := true, abilities := [] }
  else if name == "stitch_new_dog" then
    { id := "c2", cost := 4, ctype := "character", strength := some 2, willpower := some 2
      lore := 2, inkwell := true, abilities := [] }
  else if name == "simba_protective_cub" then
    { id := "c3", cost := 2, ctype := "character", strength := some 2, willpower := some 3
      lore := 1, inkwell := true, abilities := [some "Bodyguard"] }
  else if name == "gaston_arrogant_hunter" then
    { id := "c4", cost := 2, ctype := "character", strength := some 4, willpower := some 2
      lore := 1, inkwell := true, abilities := [some "Reckless"] }
  else if name == "rafiki_mysterious_sage" then
    { id := "c5", cost := 3, ctype := "character", strength := some 3, willpower := some 3
      lore := 1, inkwell := true, abilities := [some "Rush"] }
  else if name == "zero_willpower_test" then
    { id := "c6", cost := 1, ctype := "character", strength := some 1, willpower := some 0
      lore := 1, inkwell := true, abilities := [] }
  else { }

def gameNodeAt (turn : Int) : Node :=
  { ntype := "game", turn := some turn, game_over := some "0", winner := some "" }

def playerNodeBase : Node :=
  { ntype := "player", lore := some 0, ink_drops := some 1
    ink_total := some 0, ink_available := some 0 }

def mainStepNode : Node :=
  { ntype := "step", player := some "p1", step := some "main" }

def characterNode (name : String) (exerted : String) (damage entered_play : Int)
    (zone : String := "play") : Node :=
  { ntype := "card", label := some name, zone := some zone, exerted := some exerted
    damage := some damage, entered_play := some entered_play }

def baseEdges : List Edge :=
  [{ src := "game", dst := "p1", label := some "current_turn" },
   { src := "game", dst := "step.p1.main", label := some "current_step" }]

/-- The scenario of `test_must_challenge_bodyguard_when_exerted`: turn 3,
a ready dry attacker for p1, an exerted Bodyguard and an exerted plain
character for p2 (the Bodyguard keyword edge present on the graph as in
the spec data model, section 3.2). -/
def c1Graph : Graph :=
  { nodes :=
      [("game", gameNodeAt 3), ("p1", playerNodeBase), ("p2", playerNodeBase),
       ("step.p1.main", mainStepNode),
       ("p1.stitch_rock_star.a", characterNode "stitch_rock_star" "0" 0 2),
       ("p2.simba_protective_cub.a", characterNode "simba_protective_cub" "1" 0 2),
       ("bodyguard.t2.1", { ntype := "ability" }),
       ("p2.stitch_new_dog.a", characterNode "stitch_new_dog" "1" 0 2)]
    edges := baseEdges ++
      [{ src := "bodyguard.t2.1", dst := "p2.simba_protective_cub.a", label := some "bodyguard" },
       { src := "bodyguard.t2.1", dst := "p2.simba_protective_cub.a", label := some "source" }] }

/-- A Bodyguard card in hand with enough ink to play it. -/
def c2State : LorcanaState :=
  { graph :=
      { nodes :=
          [("game", gameNodeAt 1),
           ("p1", { playerNodeBase with ink_total := some 2, ink_available := some 2 }),
           ("p2", playerNodeBase), ("step.p1.main", mainStepNode),
           ("p1.simba_protective_cub.a", characterNode "simba_protective_cub" "0" 0 (-1) "hand")]
        edges := baseEdges }
    deck1_ids := [], deck2_ids := [] }

/-- A Reckless card in hand with enough ink to play it. -/
def c2GastonState : LorcanaState :=
  { graph :=
      { nodes :=
          [("game", gameNodeAt 1),
           ("p1", { playerNodeBase with ink_total := some 2, ink_available := some 2 }),
           ("p2", playerNodeBase), ("step.p1.main", mainStepNode),
           ("p1.gaston_arrogant_hunter.a", characterNode "gaston_arrogant_hunter" "0" 0 (-1) "hand")]
        edges := baseEdges }
    deck1_ids := [], deck2_ids := [] }

/-- The scenario of `test_rush.py TestAbilityCleanup`: a Rush character
in play whose printed abilities were created on entry. -/
def c3Graph : Graph :=
  create_printed_abilities
    { nodes :=
        [("game", gameNodeAt 3), ("p1", playerNodeBase), ("p2", playerNodeBase),
         ("step.p1.main", mainStepNode),
         ("p1.rafiki_mysterious_sage.a", characterNode "rafiki_mysterious_sage" "0" 0 3)]
      edges := baseEdges }
    "p1.rafiki_mysterious_sage.a" (testDb "rafiki_mysterious_sage") 3

def c3State : LorcanaState :=
  { graph := c3Graph, deck1_ids := [], deck2_ids := [] }

/-- A terminal outcome record as built by the apply paths. -/
def c5Outcome : OutcomeData :=
  { winner := some "p1", p1_lore := 20, p2_lore := 3 }

/-- An undamaged character whose willpower is 0. -/
def c8State : LorcanaState :=
  { graph :=
      { nodes :=
          [("game", gameNodeAt 3), ("p1", playerNodeBase), ("p2", playerNodeBase),
           ("step.p1.main", mainStepNode),
           ("p1.zero_willpower_test.a", characterNode "zero_willpower_test" "0" 0 2)]
        edges := baseEdges }
    deck1_ids := [], deck2_ids := [] }

/-- A character holding lethal damage (damage 2, willpower 2). -/
def c8LethalState : LorcanaState :=
  { graph :=
      { nodes :=
          [("game", gameNodeAt 3), ("p1", playerNodeBase), ("p2", playerNodeBase),
           ("step.p1.main", mainStepNode),
           ("p1.stitch_new_dog.a", characterNode "stitch_new_dog" "1" 2 2)]
        edges := baseEdges }
    deck1_ids := [], deck2_ids := [] }

/-- A state at 17 lore for p1 so that 3 more lore wins. -/
def c6State : LorcanaState :=
  { graph :=
      { nodes :=
          [("game", gameNodeAt 4), ("p1", { playerNodeBase with lore := some 17 }),
           ("p2", playerNodeBase), ("step.p1.main", mainStepNode)]
        edges := baseEdges }
    deck1_ids := [], deck2_ids := [] }

/-- Turn 3 with an empty deck for p1: the deck-out of scenario (d). -/
def c7State : LorcanaState :=
  { graph :=
      { nodes :=
          [("game", gameNodeAt 3), ("p1", playerNodeBase), ("p2", playerNodeBase),
           ("step.p1.main", mainStepNode)]
        edges := baseEdges }
    deck1_ids := [], deck2_ids := [] }

/-- Turn 2 with one card left in the p2 deck. -/
def c7DrawState : LorcanaState :=
  { graph :=
      { nodes :=
          [("game", gameNodeAt 2), ("p1", playerNodeBase), ("p2", playerNodeBase),
           ("step.p1.main", mainStepNode)]
        edges := baseEdges }
    deck1_ids := [], deck2_ids := ["stitch_new_dog.a"] }

/-- A session whose current state is `c2State` (two play variants of the
Bodyguard card will be enumerated by `compute_all`). -/
def c10Session : GameSession :=
  GameSession.new
    { c2State with graph := compute_all testDb c2State.graph } "root"

/-- A session whose current state has no action edges at all. -/
def c9Session : GameSession :=
  GameSession.new c6State "root"

/-- A file store holding only a parent state without action edges. -/
def c9FileStore : FileStore :=
  FileStore.save_state {} c6State ["seed0000"] "initial"

/-! ### Infrastructure lemmas -/

theorem find?_map_keyed (id id2 : String) (f : Node → Node) :
    ∀ l : List (String × Node),
    ((l.map (fun p => if p.1 == id then (p.1, f p.2) else p)).find? (fun p => p.1 == id2)) =
      (if id2 = id then (l.find? (fun p => p.1 == id2)).map (fun p => (p.1, f p.2))
       else l.find? (fun p => p.1 == id2)) := by
  intro l
  induction l with
  | nil => by_cases h : id2 = id <;> simp [h]
  | cons p l ih =>
    simp only [List.map_cons]
    cases hb : p.1 == id with
    | true =>
      rw [if_pos rfl, List.find?_cons, List.find?_cons]
      cases hq : p.1 == id2 with
      | true =>
        have heq : id2 = id := by
          have h1 : p.1 = id := eq_of_beq hb
          have h2 : p.1 = id2 := eq_of_beq hq
          rw [← h2, h1]
        rw [if_pos heq]
        rfl
      | false =>
        exact ih
    | false =>
      rw [if_neg (by simp), List.find?_cons, List.find?_cons]
      cases hq : p.1 == id2 with
      | true =>
        have hne : ¬ id2 = id := by
          intro hc
          rw [eq_of_beq hq, hc, beq_self_eq_true id] at hb
          cases hb
        rw [if_neg hne]
      | false =>
        exact ih

theorem getNode_updateNode (G : Graph) (id id2 : String) (f : Node → Node) :
    (G.updateNode id f).getNode id2 =
      (if id2 = id then (G.getNode id2).map f else G.getNode id2) := by
  show ((G.nodes.map (fun p => if p.1 == id then (p.1, f p.2) else p)).find?
      (fun p => p.1 == id2)).map Prod.snd = _
  rw [find?_map_keyed]
  unfold Graph.getNode
  by_cases h : id2 = id
  · rw [if_pos h, if_pos h]
    cases G.nodes.find? (fun p => p.1 == id2) with
    | none => rfl
    | some q => rfl
  · rw [if_neg h, if_neg h]

theorem updateNode_edges (G : Graph) (id : String) (f : Node → Node) :
    (G.updateNode id f).edges = G.edges := rfl

theorem addEdge_nodes (G : Graph) (e : Edge) : (G.addEdge e).nodes = G.nodes := rfl

theorem find?_map_set (id id2 : String) (n : Node) :
    ∀ l : List (String × Node),
    ((l.map (fun p => if p.1 == id then (id, n) else p)).find? (fun p => p.1 == id2)) =
      (if id2 = id then (l.find? (fun p => p.1 == id2)).map (fun _ => (id, n))
       else l.find? (fun p => p.1 == id2)) := by
  intro l
  induction l with
  | nil => by_cases h : id2 = id <;> simp [h]
  | cons p l ih =>
    simp only [List.map_cons]
    cases hb : p.1 == id with
    | true =>
      rw [if_pos rfl, List.find?_cons, List.find?_cons]
      cases hq : p.1 == id2 with
      | true =>
        have heq : id2 = id := by
          have h1 : p.1 = id := eq_of_beq hb
          have h2 : p.1 = id2 := eq_of_beq hq
          rw [← h2, h1]
        rw [(show ((id, n).1 == id2) = true by rw [heq]; exact beq_self_eq_true id)]
        rw [if_pos heq]
        rfl
      | false =>
        have hq2 : ((id, n).1 == id2) = false := by
          rw [← eq_of_beq hb]
          exact hq
        rw [hq2]
        exact ih
    | false =>
      rw [if_neg (by simp), List.find?_cons, List.find?_cons]
      cases hq : p.1 == id2 with
      | true =>
        have hne : ¬ id2 = id := by
          intro hc
          rw [eq_of_beq hq, hc, beq_self_eq_true id] at hb
          cases hb
        rw [if_neg hne]
      | false =>
        exact ih

theorem getNode_addNode_self (G : Graph) (id : String) (n : Node) :
    (G.addNode id n).getNode id = some n := by
  unfold Graph.addNode
  by_cases h : G.hasNode id
  · rw [if_pos h]
    show ((G.nodes.map (fun p => if p.1 == id then (id, n) else p)).find?
        (fun p => p.1 == id)).map Prod.snd = some n
    rw [find?_map_set, if_pos rfl]
    unfold Graph.hasNode Graph.getNode at h
    cases hf : G.nodes.find? (fun p => p.1 == id) with
    | none => rw [hf] at h; simp at h
    | some q => rfl
  · rw [if_neg h]
    show (((G.nodes ++ [(id, n)]).find? (fun p => p.1 == id))).map Prod.snd = some n
    rw [List.find?_append]
    unfold Graph.hasNode Graph.getNode at h
    cases hf : G.nodes.find? (fun p => p.1 == id) with
    | none =>
      rw [List.find?_cons,
        (show (((id, n) : String × Node).1 == id) = true from beq_self_eq_true id)]
      rfl
    | some q => rw [hf] at h; simp at h

theorem getNode_addNode_ne (G : Graph) (id id2 : String) (n : Node) (h : id2 ≠ id) :
    (G.addNode id n).getNode id2 = G.getNode id2 := by
  unfold Graph.addNode
  by_cases hh : G.hasNode id
  · rw [if_pos hh]
    show ((G.nodes.map (fun p => if p.1 == id then (id, n) else p)).find?
        (fun p => p.1 == id2)).map Prod.snd = _
    rw [find?_map_set, if_neg h]
    rfl
  · rw [if_neg hh]
    show (((G.nodes ++ [(id, n)]).find? (fun p => p.1 == id2))).map Prod.snd = _
    rw [List.find?_append]
    have hne : (((id, n) : String × Node).1 == id2) = false := by
      have hx : ¬ (id == id2) = true := by
        intro hc
        exact h (eq_of_beq hc).symm
      cases hy : (id == id2) with
      | true => exact absurd hy hx
      | false => rfl
    cases hf : G.nodes.find? (fun p => p.1 == id2) with
    | none =>
      rw [List.find?_cons, hne]
      unfold Graph.getNode
      rw [hf]
      rfl
    | some q =>
      rw [List.find?_cons, hne]
      unfold Graph.getNode
      rw [hf]
      rfl

theorem lookupAssoc_map_update {α β : Type} [BEq α] [LawfulBEq α] (k : α) (v : β) :
    ∀ l : List (α × β), (l.find? (fun p => p.1 == k)).isSome = true →
      (((l.map (fun p => if p.1 == k then (k, v) else p)).find?
          (fun p => p.1 == k)).map Prod.snd) = some v := by
  intro l
  induction l with
  | nil => intro h; simp at h
  | cons p l ih =>
    intro h
    simp only [List.map_cons]
    cases hb : p.1 == k with
    | true =>
      rw [if_pos rfl, List.find?_cons,
        (show (((k, v) : α × β).1 == k) = true from beq_self_eq_true k)]
      rfl
    | false =>
      rw [if_neg (by simp), List.find?_cons, hb]
      rw [List.find?_cons, hb] at h
      exact ih h

theorem lookupAssoc_updateAssoc_self {α β : Type} [BEq α] [LawfulBEq α]
    (l : List (α × β)) (k : α) (v : β) :
    lookupAssoc (updateAssoc l k v) k = some v := by
  unfold updateAssoc lookupAssoc
  by_cases h : (l.find? (fun p => p.1 == k)).isSome
  · rw [if_pos h]
    exact lookupAssoc_map_update k v l h
  · rw [if_neg h]
    rw [List.find?_append]
    cases hf : l.find? (fun p => p.1 == k) with
    | none =>
      rw [List.find?_cons, (show (((k, v) : α × β).1 == k) = true from beq_self_eq_true k)]
      rfl
    | some q => rw [hf] at h; simp at h

/-! ### Claim C1 -/

/-- C1: the claim states that when an exerted opposing character has the
Bodyguard keyword present on it, `compute_can_challenge` emits
`can_challenge` edges only onto Bodyguard defenders.  Evaluating the
embedded enumeration at the scenario of
`test_bodyguard.py::test_must_challenge_bodyguard_when_exerted` (one
exerted Bodyguard, one exerted plain character, a ready dry attacker,
`game_over=0`) shows the code also targets the non-Bodyguard defender:
the enumeration contains no Bodyguard restriction at all, contradicting
the claim, the spec and the repository test. -/
theorem c1_challenge_ignores_bodyguard :
    nodeStrAttr c1Graph "game" Node.game_over "0" = "0" ∧
    has_keyword c1Graph "p2.simba_protective_cub.a" "bodyguard" = true ∧
    nodeStrAttr c1Graph "p2.simba_protective_cub.a" Node.exerted "0" = "1" ∧
    has_keyword c1Graph "p2.stitch_new_dog.a" "bodyguard" = false ∧
    nodeStrAttr c1Graph "p2.stitch_new_dog.a" Node.exerted "0" = "1" ∧
    (compute_can_challenge testDb c1Graph).map ActionEdge.dst =
      ["p2.simba_protective_cub.a", "p2.stitch_new_dog.a"] := by
  decide

/-! ### Claim C2 -/

/-- C2: the claim states that playing a card creates a fresh ability
node for each of the five printed keywords (Rush, Evasive, Alert,
Bodyguard, Reckless).  Evaluating the embedded `execute_action` of a
`can_play` on a Bodyguard card and on a Reckless card shows that no
ability node, keyword edge, or `cant_quest` edge is created:
`create_printed_abilities` dispatches only on Rush and Evasive,
contradicting the claim, spec section 4.6 and the expectations recorded
in `test_reckless.py`, `test_alert.py` and `test_bodyguard.py`. -/
theorem c2_play_creates_no_bodyguard_or_reckless_abilities :
    (testDb "simba_protective_cub").abilities = [some "Bodyguard"] ∧
    (testDb "gaston_arrogant_hunter").abilities = [some "Reckless"] ∧
    (let s2 := execute_action testDb c2State "can_play" "p1.simba_protective_cub.a" "p1" []
     nodeStrAttr s2.graph "p1.simba_protective_cub.a" Node.zone "" = "play" ∧
     s2.graph.edges.filter (fun e => e.label == some "bodyguard") = [] ∧
     s2.graph.nodes.filter (fun p => p.2.ntype == "ability") = []) ∧
    (let s3 := execute_action testDb c2GastonState "can_play" "p1.gaston_arrogant_hunter.a" "p1" []
     nodeStrAttr s3.graph "p1.gaston_arrogant_hunter.a" Node.zone "" = "play" ∧
     s3.graph.edges.filter (fun e => e.label == some "cant_quest") = [] ∧
     s3.graph.edges.filter (fun e => e.label == some "reckless") = [] ∧
     s3.graph.nodes.filter (fun p => p.2.ntype == "ability") = []) := by
  decide

/-! ### Claim C3 -/

/-- C3: the claim states that `move_card` out of the play zone deletes
every ability node whose `source` edge points at the moved card,
together with all of its outgoing edges.  Evaluating the embedded
`move_card` at the scenario of `test_rush.py::TestAbilityCleanup` (a
Rush character in play with ability node `rush.t3.1`), and the
state-based banish of the same character after lethal damage, shows the
ability node and both of its outgoing edges survive: `move_card` only
sets the zone attribute, contradicting the claim, spec section 4.2 and
the repository test. -/
theorem c3_move_card_keeps_ability_nodes :
    Graph.hasNode c3Graph "rush.t3.1" = true ∧
    (c3Graph.edges.filter (fun e => e.src == "rush.t3.1")).map Edge.label =
      [some "rush", some "source"] ∧
    (let s2 := c3State.move_card "p1.rafiki_mysterious_sage.a" "discard"
     nodeStrAttr s2.graph "p1.rafiki_mysterious_sage.a" Node.zone "" = "discard" ∧
     Graph.hasNode s2.graph "rush.t3.1" = true ∧
     s2.graph.edges.filter (fun e => e.src == "rush.t3.1") =
       c3Graph.edges.filter (fun e => e.src == "rush.t3.1")) ∧
    (let s3 := check_and_banish_damaged_characters testDb
        (c3State.damage_card "p1.rafiki_mysterious_sage.a" 5)
     nodeStrAttr s3.graph "p1.rafiki_mysterious_sage.a" Node.zone "" = "discard" ∧
     Graph.hasNode s3.graph "rush.t3.1" = true ∧
     s3.graph.edges.filter (fun e => e.src == "rush.t3.1") =
       c3Graph.edges.filter (fun e => e.src == "rush.t3.1")) := by
  decide

/-! ### Claim C5 -/

/-- C5: the claim states that recording a terminal state at
`seed/a1/…/ak` increments `outcomes[a_{j+1}]` at each ancestor and
appends the concatenated suffix.  The walk and the suffix lists are as
claimed, but the per-action key written by `save_outcome` is
`suffix[0]`, the first CHARACTER of the suffix.  Base-36 action ids
reach two characters (the 37th action id is `"10"`, and spec section
6.2 allows child directory names of length up to 2); at the terminal
path `seed0000/10` the code increments `outcomes["1"]` and leaves no
`outcomes["10"]` entry, while the claim (and the source comment
describing `first_action` as the immediate child) require
`outcomes["10"]`. -/
theorem c5_save_outcome_uses_first_char :
    toBase36 36 = "10" ∧
    find_seed_path ["seed0000", "10"] = some ["seed0000"] ∧
    backpropagate ["seed0000", "10"] ["seed0000"] = [(["seed0000"], "10")] ∧
    (let fs := (backpropagate ["seed0000", "10"] ["seed0000"]).foldl
        (fun st pr => st.save_outcome pr.1 (some pr.2) c5Outcome) ({} : FileStore)
     let o := (lookupAssoc fs.outcome_refs ["seed0000"]).getD {}
     o.outcomes = [("1", (1, 0))] ∧ lookupAssoc o.outcomes "10" = none ∧
     o.p1_wins = ["10"]) := by
  decide

/-! ### Ordering lemmas for the action sort -/

theorem then_eq_lt {a b : Ordering} : a.then b = .lt ↔ a = .lt ∨ (a = .eq ∧ b = .lt) := by
  cases a <;> simp [Ordering.then]

theorem then_eq_eq {a b : Ordering} : a.then b = .eq ↔ a = .eq ∧ b = .eq := by
  cases a <;> simp [Ordering.then]

theorem keyCmp_self (a : String × String × String) : keyCmp a a = .eq := by
  unfold keyCmp
  rw [strCmp_self, strCmp_self, strCmp_self]
  rfl

theorem keyCmp_eq_iff {a b : String × String × String} : keyCmp a b = .eq ↔ a = b := by
  unfold keyCmp
  rw [then_eq_eq, then_eq_eq, strCmp_eq_iff, strCmp_eq_iff, strCmp_eq_iff, Prod.ext_iff,
    Prod.ext_iff]

theorem keyCmp_swap (a b : String × String × String) : keyCmp a b = (keyCmp b a).swap := by
  unfold keyCmp
  rw [strCmp_swap a.1, strCmp_swap a.2.1, strCmp_swap a.2.2]
  cases strCmp b.1 a.1 <;> cases strCmp b.2.1 a.2.1 <;> cases strCmp b.2.2 a.2.2 <;> rfl

theorem keyCmp_lt_trans {a b c : String × String × String}
    (h1 : keyCmp a b = .lt) (h2 : keyCmp b c = .lt) : keyCmp a c = .lt := by
  unfold keyCmp at h1 h2 ⊢
  rw [then_eq_lt] at h1 h2 ⊢
  rcases h1 with h1 | ⟨h1e, h1r⟩
  · rcases h2 with h2 | ⟨h2e, h2r⟩
    · exact Or.inl (strCmp_lt_trans h1 h2)
    · left
      rw [strCmp_eq_iff] at h2e
      rw [← h2e]
      exact h1
  · rw [strCmp_eq_iff] at h1e
    rcases h2 with h2 | ⟨h2e, h2r⟩
    · left
      rw [h1e]
      exact h2
    · rw [strCmp_eq_iff] at h2e
      right
      refine ⟨by rw [strCmp_eq_iff, h1e, h2e], ?_⟩
      rw [then_eq_lt] at h1r h2r ⊢
      rcases h1r with h1r | ⟨h1f, h1g⟩
      · rcases h2r with h2r | ⟨h2f, h2g⟩
        · exact Or.inl (strCmp_lt_trans h1r h2r)
        · left
          rw [strCmp_eq_iff] at h2f
          rw [← h2f]
          exact h1r
      · rw [strCmp_eq_iff] at h1f
        rcases h2r with h2r | ⟨h2f, h2g⟩
        · left
          rw [h1f]
          exact h2r
        · rw [strCmp_eq_iff] at h2f
          exact Or.inr ⟨by rw [strCmp_eq_iff, h1f, h2f], strCmp_lt_trans h1g h2g⟩

theorem actionEdgeLe_total : ∀ a b : ActionEdge, actionEdgeLe a b ∨ actionEdgeLe b a := by
  intro a b
  unfold actionEdgeLe
  by_cases h : keyCmp (edge_sort_key a) (edge_sort_key b) = .gt
  · right
    intro hc
    have hs := keyCmp_swap (edge_sort_key a) (edge_sort_key b)
    rw [h, hc] at hs
    exact absurd hs (by decide)
  · exact Or.inl h

theorem actionEdgeLe_trans : ∀ a b c : ActionEdge,
    actionEdgeLe a b → actionEdgeLe b c → actionEdgeLe a c := by
  intro a b c h1 h2
  unfold actionEdgeLe at h1 h2 ⊢
  cases hab : keyCmp (edge_sort_key a) (edge_sort_key b) with
  | gt => exact absurd hab h1
  | lt =>
    cases hbc : keyCmp (edge_sort_key b) (edge_sort_key c) with
    | gt => exact absurd hbc h2
    | lt =>
      rw [keyCmp_lt_trans hab hbc]
      decide
    | eq =>
      rw [keyCmp_eq_iff] at hbc
      rw [← hbc, hab]
      decide
  | eq =>
    rw [keyCmp_eq_iff] at hab
    cases hbc : keyCmp (edge_sort_key b) (edge_sort_key c) with
    | gt => exact absurd hbc h2
    | lt =>
      rw [hab, hbc]
      decide
    | eq =>
      rw [keyCmp_eq_iff] at hbc
      rw [hab, hbc, keyCmp_self]
      decide

instance actionEdgeLe.instIsTotal : IsTotal ActionEdge actionEdgeLe :=
  ⟨actionEdgeLe_total⟩

instance actionEdgeLe.instIsTrans : IsTrans ActionEdge actionEdgeLe :=
  ⟨actionEdgeLe_trans⟩

theorem actionEdgeLe_of_key_eq {a b : ActionEdge}
    (h : edge_sort_key a = edge_sort_key b) : actionEdgeLe a b := by
  unfold actionEdgeLe
  rw [h, keyCmp_self]
  decide

/-- Stability of the stable sort: inserting an element walks past only
strictly smaller keys, so the sublist at any fixed key is preserved. -/
theorem filter_orderedInsert_key (k : String × String × String) (a : ActionEdge) :
    ∀ l : List ActionEdge,
    (List.orderedInsert actionEdgeLe a l).filter (fun e => edge_sort_key e == k) =
      (if (edge_sort_key a == k) = true
       then a :: l.filter (fun e => edge_sort_key e == k)
       else l.filter (fun e => edge_sort_key e == k)) := by
  intro l
  induction l with
  | nil =>
    show (List.filter _ [a]) = _
    rw [List.filter_cons]
  | cons b l ih =>
    unfold List.orderedInsert
    by_cases hle : actionEdgeLe a b
    · rw [if_pos hle]
      rw [List.filter_cons, List.filter_cons]
    · rw [if_neg hle]
      rw [List.filter_cons, List.filter_cons, ih]
      cases hpa : edge_sort_key a == k with
      | true =>
        have hpb : (edge_sort_key b == k) = false := by
          cases hpb2 : edge_sort_key b == k with
          | false => rfl
          | true =>
            exfalso
            apply hle
            apply actionEdgeLe_of_key_eq
            rw [eq_of_beq hpa, eq_of_beq hpb2]
        simp [hpb]
      | false =>
        simp

theorem insertionSort_filter_key (k : String × String × String) :
    ∀ l : List ActionEdge,
    (List.insertionSort actionEdgeLe l).filter (fun e => edge_sort_key e == k) =
      l.filter (fun e => edge_sort_key e == k) := by
  intro l
  induction l with
  | nil => rfl
  | cons a l ih =>
    show (List.orderedInsert actionEdgeLe a (List.insertionSort actionEdgeLe l)).filter _ = _
    rw [filter_orderedInsert_key, List.filter_cons]
    cases hpa : edge_sort_key a == k with
    | true => rw [if_pos rfl, if_pos rfl, ih]
    | false => rw [if_neg (by simp), if_neg (by simp), ih]

/-! ### Characterization of `compute_all` -/

theorem foldl_add_can_edge_nodes :
    ∀ (l : List (Nat × ActionEdge)) (g : Graph),
    (l.foldl (fun g p =>
        add_can_edge g p.2.src p.2.dst p.2.action_type (toBase36 p.1) p.2.description) g).nodes =
      g.nodes := by
  intro l
  induction l with
  | nil => intro g; rfl
  | cons p l ih =>
    intro g
    rw [List.foldl_cons, ih]
    rfl

theorem foldl_add_can_edge_edges :
    ∀ (l : List (Nat × ActionEdge)) (g : Graph),
    (l.foldl (fun g p =>
        add_can_edge g p.2.src p.2.dst p.2.action_type (toBase36 p.1) p.2.description) g).edges =
      g.edges ++ l.map (fun p =>
        ({ src := p.2.src, dst := p.2.dst, action_type := some p.2.action_type
           action_id := some (toBase36 p.1), description := some p.2.description } : Edge)) := by
  intro l
  induction l with
  | nil => intro g; simp
  | cons p l ih =>
    intro g
    rw [List.foldl_cons, List.map_cons, ih]
    show (g.edges ++ [_]) ++ _ = _
    rw [List.append_assoc]
    rfl

theorem clear_can_edges_nodes (G : Graph) : (clear_can_edges G).nodes = G.nodes := rfl

theorem clear_can_edges_eq (G : Graph) (hwf : ∀ e ∈ G.edges, e.action_type ≠ some "") :
    (clear_can_edges G).edges = G.edges.filter (fun e => e.action_type == none) := by
  unfold clear_can_edges
  apply List.filter_congr
  intro e he
  cases hat : e.action_type with
  | none => rfl
  | some s =>
    have hs : s ≠ "" := by
      intro hc
      exact hwf e he (by rw [hat, hc])
    simp [truthyOpt, hs]

theorem compute_all_eq (db : CardDB) (G : Graph) :
    compute_all db G =
      (if (((clear_can_edges G).getNode "game").bind Node.game_over).getD "0" == "1"
       then clear_can_edges G
       else ((List.insertionSort actionEdgeLe
            (enumerate_all_edges db (clear_can_edges G))).enum.foldl
          (fun g p =>
            add_can_edge g p.2.src p.2.dst p.2.action_type (toBase36 p.1) p.2.description)
          (clear_can_edges G))) := rfl

theorem compute_all_nodes (db : CardDB) (G : Graph) :
    (compute_all db G).nodes = G.nodes := by
  rw [compute_all_eq]
  by_cases h : ((((clear_can_edges G).getNode "game").bind Node.game_over).getD "0" == "1") = true
  · rw [if_pos h]
    rfl
  · rw [if_neg h, foldl_add_can_edge_nodes]
    rfl

/-! ### Claim C4 -/

/-- C4: `compute_all` first removes every edge carrying an
`action_type` attribute (the well-formedness hypothesis rules out the
empty-string attribute value, which the engine never writes and whose
removal Python truthiness would skip); if `game_over=1` it adds
nothing; otherwise it appends exactly the edges enumerated by the Pass,
Ink, Play, Quest and Challenge mechanics — a permutation of the
enumeration, sorted by the lexicographic key `(action_type, src, dst)`,
with the enumeration order preserved within every key (stability) — and
the i-th sorted edge receives `action_id = base36(i)`, whose
representation runs 0…z then 10. -/
theorem c4_compute_all_deterministic (db : CardDB) (G : Graph)
    (hwf : ∀ e ∈ G.edges, e.action_type ≠ some "") :
    (compute_all db G).nodes = G.nodes ∧
    (List.insertionSort actionEdgeLe (enumerate_all_edges db (clear_can_edges G))).Perm
      (enumerate_all_edges db (clear_can_edges G)) ∧
    (List.insertionSort actionEdgeLe
        (enumerate_all_edges db (clear_can_edges G))).Sorted actionEdgeLe ∧
    (∀ k, (List.insertionSort actionEdgeLe
        (enumerate_all_edges db (clear_can_edges G))).filter (fun e => edge_sort_key e == k) =
      (enumerate_all_edges db (clear_can_edges G)).filter (fun e => edge_sort_key e == k)) ∧
    (((G.getNode "game").bind Node.game_over).getD "0" = "1" →
      (compute_all db G).edges = G.edges.filter (fun e => e.action_type == none)) ∧
    (((G.getNode "game").bind Node.game_over).getD "0" ≠ "1" →
      (compute_all db G).edges =
        G.edges.filter (fun e => e.action_type == none) ++
          (List.insertionSort actionEdgeLe
            (enumerate_all_edges db (clear_can_edges G))).enum.map
            (fun p => ({ src := p.2.src, dst := p.2.dst, action_type := some p.2.action_type
                         action_id := some (toBase36 p.1)
                         description := some p.2.description } : Edge))) ∧
    toBase36 35 = "z" ∧ toBase36 36 = "10" := by
  refine ⟨compute_all_nodes db G, List.perm_insertionSort _ _, List.sorted_insertionSort _ _,
    fun k => insertionSort_filter_key k _, ?_, ?_, by decide, by decide⟩
  · intro h
    have hx : ((((clear_can_edges G).getNode "game").bind Node.game_over).getD "0" == "1")
        = true := by
      have hx2 : (((clear_can_edges G).getNode "game").bind Node.game_over).getD "0" = "1" := h
      rw [hx2]
      exact beq_self_eq_true "1"
    rw [compute_all_eq, if_pos hx]
    exact clear_can_edges_eq G hwf
  · intro h
    have hx : ¬ ((((clear_can_edges G).getNode "game").bind Node.game_over).getD "0" == "1")
        = true := by
      intro hc
      exact h (eq_of_beq hc)
    rw [compute_all_eq, if_neg hx]
    rw [foldl_add_can_edge_edges, clear_can_edges_eq G hwf]

/-- C4 witness: the theorem applied at the concrete Bodyguard scenario
graph, whose edges all lack `action_type` attributes. -/
theorem c4_compute_all_deterministic_witness :
    (∀ e ∈ c1Graph.edges, e.action_type ≠ some "") ∧
    (compute_all testDb c1Graph).nodes = c1Graph.nodes :=
  ⟨by decide, (c4_compute_all_deterministic testDb c1Graph (by decide)).1⟩

/-! ### Claim C6 -/

theorem add_lore_eq (s : LorcanaState) (p : String) (n : Int) :
    s.add_lore p n =
      (if nodeIntAttr s.graph p Node.lore 0 + n ≥ 20 then
        { s with graph :=
            ((s.graph.updateNode p
                (fun nd => { nd with lore := some (nodeIntAttr s.graph p Node.lore 0 + n) })).updateNode
              "game" (fun nd => { nd with winner := some p, game_over := some "1" })) }
       else
        { s with graph :=
            (s.graph.updateNode p
              (fun nd => { nd with lore := some (nodeIntAttr s.graph p Node.lore 0 + n) })) }) :=
  rfl

theorem nodeIntAttr_of_getNode {G : Graph} {id : String} {nd : Node}
    (get : Node → Option Int) (d : Int) (h : G.getNode id = some nd) :
    nodeIntAttr G id get d = (get nd).getD d := by
  unfold nodeIntAttr
  rw [h]

theorem nodeStrAttr_of_getNode {G : Graph} {id : String} {nd : Node}
    (get : Node → Option String) (d : String) (h : G.getNode id = some nd) :
    nodeStrAttr G id get d = (get nd).getD d := by
  unfold nodeStrAttr
  rw [h]

theorem action_type_none_of_not_truthy {o : Option String}
    (h1 : truthyOpt o = false) (h2 : o ≠ some "") : o = none := by
  cases o with
  | none => rfl
  | some s =>
    by_cases hs : s = ""
    · exact absurd (by rw [hs]) h2
    · simp [truthyOpt, hs] at h1

/-- C6: `add_lore(player, n)` increases the lore attribute of the
player by `n`; when the new total reaches 20 it sets `game_over="1"`
and `winner=player` on the game node, and a subsequent `compute_all`
leaves no edge carrying an `action_type` attribute.  The hypotheses
say that the player and game nodes exist (the source raises `KeyError`
otherwise), that the player node is not the game node, and that no
existing edge carries the empty-string `action_type` the engine never
writes. -/
theorem c6_add_lore_win_check (db : CardDB) (s : LorcanaState) (p : String) (n : Int)
    (hp : (s.graph.getNode p).isSome = true)
    (hg : (s.graph.getNode "game").isSome = true)
    (hpg : p ≠ "game")
    (hwf : ∀ e ∈ s.graph.edges, e.action_type ≠ some "") :
    nodeIntAttr (s.add_lore p n).graph p Node.lore 0 =
      nodeIntAttr s.graph p Node.lore 0 + n ∧
    (nodeIntAttr s.graph p Node.lore 0 + n ≥ 20 →
      nodeStrAttr (s.add_lore p n).graph "game" Node.game_over "0" = "1" ∧
      ((s.add_lore p n).graph.getNode "game").bind Node.winner = some p ∧
      (∀ e ∈ (compute_all db (s.add_lore p n).graph).edges, e.action_type = none)) := by
  obtain ⟨nd, hnd⟩ := Option.isSome_iff_exists.mp hp
  obtain ⟨gd, hgd⟩ := Option.isSome_iff_exists.mp hg
  have hgp : "game" ≠ p := Ne.symm hpg
  rw [add_lore_eq]
  by_cases h20 : nodeIntAttr s.graph p Node.lore 0 + n ≥ 20
  · rw [if_pos h20]
    have hgame : ((s.graph.updateNode p
        (fun nd => { nd with lore := some (nodeIntAttr s.graph p Node.lore 0 + n) })).updateNode
          "game" (fun nd => { nd with winner := some p, game_over := some "1" })).getNode
          "game" =
        some { gd with winner := some p, game_over := some "1" } := by
      rw [getNode_updateNode, if_pos rfl, getNode_updateNode, if_neg hgp, hgd]
      rfl
    have hplayer : ((s.graph.updateNode p
        (fun nd => { nd with lore := some (nodeIntAttr s.graph p Node.lore 0 + n) })).updateNode
          "game" (fun nd => { nd with winner := some p, game_over := some "1" })).getNode p =
        some { nd with lore := some (nodeIntAttr s.graph p Node.lore 0 + n) } := by
      rw [getNode_updateNode, if_neg hpg, getNode_updateNode, if_pos rfl, hnd]
      rfl
    refine ⟨?_, fun _ => ⟨?_, ?_, ?_⟩⟩
    · rw [nodeIntAttr_of_getNode Node.lore 0 hplayer]
      rfl
    · rw [nodeStrAttr_of_getNode Node.game_over "0" hgame]
      rfl
    · rw [hgame]
      rfl
    · intro e he
      have hover : ((((clear_can_edges ((s.graph.updateNode p
          (fun nd => { nd with lore := some (nodeIntAttr s.graph p Node.lore 0 + n) })).updateNode
            "game" (fun nd => { nd with winner := some p, game_over := some "1" }))).getNode
            "game").bind Node.game_over).getD "0" == "1") = true := by
        have hsame : (clear_can_edges ((s.graph.updateNode p
            (fun nd => { nd with lore := some (nodeIntAttr s.graph p Node.lore 0 + n) })).updateNode
              "game" (fun nd => { nd with winner := some p, game_over := some "1" }))).getNode
              "game" =
            some { gd with winner := some p, game_over := some "1" } := hgame
        rw [hsame]
        rfl
      rw [compute_all_eq, if_pos hover] at he
      unfold clear_can_edges at he
      rw [List.mem_filter] at he
      obtain ⟨hmem, hpred⟩ := he
      have hne := hwf e hmem
      apply action_type_none_of_not_truthy ?_ hne
      cases htp : truthyOpt e.action_type with
      | false => rfl
      | true => rw [htp] at hpred; cases hpred
  · rw [if_neg h20]
    refine ⟨?_, fun hc => absurd hc h20⟩
    have hplayer2 : (s.graph.updateNode p
        (fun nd => { nd with lore := some (nodeIntAttr s.graph p Node.lore 0 + n) })).getNode p =
        some { nd with lore := some (nodeIntAttr s.graph p Node.lore 0 + n) } := by
      rw [getNode_updateNode, if_pos rfl, hnd]
      rfl
    rw [nodeIntAttr_of_getNode Node.lore 0 hplayer2]
    rfl

/-- C6 witness: p1 at 17 lore gains 3 and wins. -/
theorem c6_add_lore_win_check_witness :
    ((c6State.graph.getNode "p1").isSome = true ∧
     (c6State.graph.getNode "game").isSome = true ∧
     "p1" ≠ "game" ∧ (∀ e ∈ c6State.graph.edges, e.action_type ≠ some "")) ∧
    nodeIntAttr (c6State.add_lore "p1" 3).graph "p1" Node.lore 0 =
      nodeIntAttr c6State.graph "p1" Node.lore 0 + 3 :=
  ⟨⟨by decide, by decide, by decide, by decide⟩,
    (c6_add_lore_win_check testDb c6State "p1" 3 (by decide) (by decide) (by decide)
      (by decide)).1⟩

/-! ### Claim C7 -/

/-- C7: the draw step executed inside `advance_turn` for player `P`
skips entirely when `P` is the starting player (hardcoded `p1`, per the
source comment) and the turn is 1; otherwise with an empty deck it sets
`game_over="1"` and `winner` to the opponent without drawing and
changes nothing else; otherwise it pops exactly the front card of the
deck and creates its card node in `zone=hand`. -/
theorem c7_draw_step_spec (db : CardDB) (s : LorcanaState) (p : String)
    (hp : p = "p1" ∨ p = "p2") :
    ((p = "p1" ∧ nodeIntAttr s.graph "game" Node.turn 0 = 1) → draw_step db s p = s) ∧
    (¬ (p = "p1" ∧ nodeIntAttr s.graph "game" Node.turn 0 = 1) →
      (if p = "p1" then s.deck1_ids else s.deck2_ids) = [] →
      draw_step db s p =
        { s with graph := s.graph.updateNode "game" (fun nd =>
            { nd with winner := some (if p = "p1" then "p2" else "p1")
                      game_over := some "1" }) }) ∧
    (∀ c rest, ¬ (p = "p1" ∧ nodeIntAttr s.graph "game" Node.turn 0 = 1) →
      (if p = "p1" then s.deck1_ids else s.deck2_ids) = c :: rest →
      draw_step db s p =
        { s with
            graph := create_card_node db s.graph c (if p = "p1" then 1 else 2)
            deck1_ids := if p = "p1" then rest else s.deck1_ids
            deck2_ids := if p = "p1" then s.deck2_ids else rest } ∧
      (draw_step db s p).graph.getNode
          ("p" ++ toString (if p = "p1" then (1 : Nat) else 2) ++ "." ++ c) =
        some { ntype := "Card", card_id := some (db (rsplitDotHead c)).id, exerted := some "0"
               damage := some 0, label := some (rsplitDotHead c), zone := some "hand" }) := by
  rcases hp with rfl | rfl
  · refine ⟨?_, ?_, ?_⟩
    · rintro ⟨-, ht⟩
      simp [draw_step, ht]
    · intro hnot hdeck
      have ht1 : ¬ nodeIntAttr s.graph "game" Node.turn 0 = 1 := fun hc => hnot ⟨rfl, hc⟩
      rw [if_pos rfl] at hdeck
      simp [draw_step, ht1, hdeck]
    · intro c rest hnot hdeck
      have ht1 : ¬ nodeIntAttr s.graph "game" Node.turn 0 = 1 := fun hc => hnot ⟨rfl, hc⟩
      rw [if_pos rfl] at hdeck
      have hres : draw_step db s "p1" =
          { s with graph := create_card_node db s.graph c 1, deck1_ids := rest } := by
        simp [draw_step, ht1, hdeck, LorcanaState.draw]
      refine ⟨by simp [hres], ?_⟩
      rw [hres]
      show (create_card_node db s.graph c 1).getNode _ = _
      simp only [if_pos rfl]
      unfold create_card_node
      exact getNode_addNode_self _ _ _
  · refine ⟨?_, ?_, ?_⟩
    · rintro ⟨h1, -⟩
      exact absurd h1 (by decide)
    · intro _ hdeck
      rw [if_neg (by decide : ¬ ("p2" : String) = "p1")] at hdeck
      simp [draw_step, hdeck]
    · intro c rest _ hdeck
      rw [if_neg (by decide : ¬ ("p2" : String) = "p1")] at hdeck
      have hres : draw_step db s "p2" =
          { s with graph := create_card_node db s.graph c 2, deck2_ids := rest } := by
        simp [draw_step, hdeck, LorcanaState.draw]
      refine ⟨by simp [hres], ?_⟩
      rw [hres]
      show (create_card_node db s.graph c 2).getNode _ = _
      simp only [if_neg (by decide : ¬ ("p2" : String) = "p1")]
      unfold create_card_node
      exact getNode_addNode_self _ _ _

/-- C7 witness: the deck-out of scenario (d): turn 3, p1 with an empty
deck; the theorem applied at that state sets the loss for p1. -/
theorem c7_draw_step_spec_witness :
    (("p1" : String) = "p1" ∨ ("p1" : String) = "p2") ∧
    nodeStrAttr (draw_step testDb c7State "p1").graph "game" Node.game_over "0" = "1" ∧
    ((draw_step testDb c7State "p1").graph.getNode "game").bind Node.winner = some "p2" := by
  refine ⟨Or.inl rfl, ?_⟩
  have h := ((c7_draw_step_spec testDb c7State "p1" (Or.inl rfl)).2.1)
    (by decide) (by decide)
  rw [h]
  constructor
  · decide
  · decide

/-! ### Claim C8 -/

theorem getNode_isSome_of_mem_zone {G : Graph} {player zone c : String}
    (h : c ∈ cards_in_zone G player zone) : (G.getNode c).isSome = true := by
  unfold cards_in_zone at h
  rw [List.mem_map] at h
  obtain ⟨pair, hmem, heq⟩ := h
  rw [List.mem_filter] at hmem
  unfold Graph.getNode
  have hf : (List.find? (fun p => p.1 == c) G.nodes).isSome = true := by
    rw [List.find?_isSome]
    exact ⟨pair, hmem.1, by rw [heq]; exact beq_self_eq_true c⟩
  obtain ⟨x, hx⟩ := Option.isSome_iff_exists.mp hf
  rw [hx]
  rfl

theorem fold_move_getNode_not_mem (c : String) :
    ∀ (l : List String) (s : LorcanaState), c ∉ l →
      ((l.foldl (fun st cc => st.move_card cc "discard") s).graph.getNode c) =
        s.graph.getNode c := by
  intro l
  induction l with
  | nil => intro s _; rfl
  | cons d l ih =>
    intro s h
    rw [List.mem_cons, not_or] at h
    obtain ⟨h1, h2⟩ := h
    rw [List.foldl_cons, ih _ h2]
    show (s.graph.updateNode d _).getNode c = _
    rw [getNode_updateNode, if_neg h1]

theorem fold_move_zone_discard (c : String) :
    ∀ (l : List String) (s : LorcanaState),
      (s.graph.getNode c).isSome = true →
      (c ∈ l ∨ nodeStrAttr s.graph c Node.zone "" = "discard") →
      nodeStrAttr ((l.foldl (fun st cc => st.move_card cc "discard") s)).graph c Node.zone ""
        = "discard" := by
  intro l
  induction l with
  | nil =>
    intro s _ h
    rcases h with h | h
    · cases h
    · exact h
  | cons d l ih =>
    intro s hsome h
    obtain ⟨nd, hnd⟩ := Option.isSome_iff_exists.mp hsome
    rw [List.foldl_cons]
    by_cases hdc : c = d
    · subst hdc
      have hstep : (s.move_card c "discard").graph.getNode c =
          some { nd with zone := some "discard" } := by
        show (s.graph.updateNode c _).getNode c = _
        rw [getNode_updateNode, if_pos rfl, hnd]
        rfl
      apply ih
      · rw [hstep]
        rfl
      · right
        rw [nodeStrAttr_of_getNode Node.zone "" hstep]
        rfl
    · have hstep : (s.move_card d "discard").graph.getNode c = s.graph.getNode c := by
        show (s.graph.updateNode d _).getNode c = _
        rw [getNode_updateNode, if_neg hdc]
      apply ih
      · rw [hstep]
        exact hsome
      · rcases h with h | h
        · rcases List.mem_cons.mp h with h1 | h1
          · exact absurd h1 hdc
          · exact Or.inl h1
        · right
          unfold nodeStrAttr at h ⊢
          rw [hstep]
          exact h

theorem fold_move_decks :
    ∀ (l : List String) (s : LorcanaState),
      ((l.foldl (fun st cc => st.move_card cc "discard") s)).deck1_ids = s.deck1_ids ∧
      ((l.foldl (fun st cc => st.move_card cc "discard") s)).deck2_ids = s.deck2_ids := by
  intro l
  induction l with
  | nil => intro s; exact ⟨rfl, rfl⟩
  | cons d l ih =>
    intro s
    rw [List.foldl_cons]
    exact ih _

/-- C8 counterexample: the claim as stated requires banishing a
character whose willpower is 0 even at 0 damage (damage ≥ willpower
holds), but the single state-based pass skips every character with zero
damage, so the character stays in play. -/
theorem c8_zero_willpower_not_banished :
    (get_card_data testDb c8State.graph "p1.zero_willpower_test.a").ctype = "character" ∧
    nodeStrAttr c8State.graph "p1.zero_willpower_test.a" Node.zone "" = "play" ∧
    nodeIntAttr c8State.graph "p1.zero_willpower_test.a" Node.damage 0 ≥
      get_willpower testDb c8State "p1.zero_willpower_test.a" ∧
    nodeStrAttr (check_and_banish_damaged_characters testDb c8State).graph
      "p1.zero_willpower_test.a" Node.zone "" = "play" := by
  decide

/-- C8 (amended): one state-based pass moves to the discard zone
exactly the characters of either play zone whose damage is nonzero and
at least their willpower; every other node is untouched, as are the
decks.  A character with 0 damage is never banished, even when its
willpower is 0. -/
theorem c8_state_based_banish (db : CardDB) (s : LorcanaState) :
    (∀ c ∈ cards_to_banish db s,
      nodeStrAttr (check_and_banish_damaged_characters db s).graph c Node.zone "" =
        "discard") ∧
    (∀ c, c ∉ cards_to_banish db s →
      (check_and_banish_damaged_characters db s).graph.getNode c = s.graph.getNode c) ∧
    (check_and_banish_damaged_characters db s).deck1_ids = s.deck1_ids ∧
    (check_and_banish_damaged_characters db s).deck2_ids = s.deck2_ids ∧
    (∀ c, c ∈ cards_to_banish db s ↔
      ((c ∈ cards_in_zone s.graph "p1" "play" ∨ c ∈ cards_in_zone s.graph "p2" "play") ∧
       (get_card_data db s.graph c).ctype = "character" ∧
       nodeIntAttr s.graph c Node.damage 0 ≠ 0 ∧
       nodeIntAttr s.graph c Node.damage 0 ≥ get_willpower db s c)) := by
  refine ⟨?_, ?_, (fold_move_decks _ _).1, (fold_move_decks _ _).2, ?_⟩
  · intro c hc
    apply fold_move_zone_discard
    · have hzone : c ∈ cards_in_zone s.graph "p1" "play" ∨
          c ∈ cards_in_zone s.graph "p2" "play" := by
        unfold cards_to_banish at hc
        rw [List.mem_flatMap] at hc
        obtain ⟨player, hpl, hcc⟩ := hc
        rw [List.mem_filter] at hcc
        simp only [List.mem_cons, List.not_mem_nil, or_false] at hpl
        rcases hpl with h | h
        · subst h
          exact Or.inl hcc.1
        · subst h
          exact Or.inr hcc.1
      rcases hzone with h | h
      · exact getNode_isSome_of_mem_zone h
      · exact getNode_isSome_of_mem_zone h
    · exact Or.inl hc
  · intro c hc
    exact fold_move_getNode_not_mem c _ _ hc
  · intro c
    unfold cards_to_banish
    rw [List.mem_flatMap]
    constructor
    · rintro ⟨player, hpl, hcc⟩
      rw [List.mem_filter] at hcc
      obtain ⟨hmem, hcond⟩ := hcc
      simp only [Bool.and_eq_true, beq_iff_eq, Bool.not_eq_eq_eq_not, Bool.not_true,
        decide_eq_true_eq, bne_iff_ne, ne_eq] at hcond
      simp only [List.mem_cons, List.not_mem_nil, or_false] at hpl
      rcases hpl with h | h
      · subst h
        refine ⟨Or.inl hmem, ?_⟩
        simpa using hcond
      · subst h
        refine ⟨Or.inr hmem, ?_⟩
        simpa using hcond
    · rintro ⟨hzone, hchar, hdmg, hwp⟩
      rcases hzone with h | h
      · refine ⟨"p1", by simp, ?_⟩
        rw [List.mem_filter]
        refine ⟨h, ?_⟩
        simp [hchar, hdmg, hwp]
      · refine ⟨"p2", by simp, ?_⟩
        rw [List.mem_filter]
        refine ⟨h, ?_⟩
        simp [hchar, hdmg, hwp]

/-- C8 witness: at the lethal-damage state the damaged character is in
the banish set and gets moved to discard. -/
theorem c8_state_based_banish_witness :
    "p1.stitch_new_dog.a" ∈ cards_to_banish testDb c8LethalState ∧
    nodeStrAttr (check_and_banish_damaged_characters testDb c8LethalState).graph
      "p1.stitch_new_dog.a" Node.zone "" = "discard" :=
  ⟨by decide, (c8_state_based_banish testDb c8LethalState).1 _ (by decide)⟩

/-! ### Claims C9 and C10 -/

theorem save_outcome_states (ms : MemoryStore) (p : String) (sfx : Option String)
    (d : OutcomeData) : (ms.save_outcome p sfx d).states = ms.states := by
  cases sfx <;> rfl

theorem load_state_save_state_self (ms : MemoryStore) (s : LorcanaState) (k : String) :
    (ms.save_state s k).load_state k = some s := by
  show lookupAssoc (updateAssoc ms.states k s) k = some s
  exact lookupAssoc_updateAssoc_self _ _ _

theorem load_state_save_outcome (ms : MemoryStore) (p : String) (sfx : Option String)
    (d : OutcomeData) (k : String) :
    (ms.save_outcome p sfx d).load_state k = ms.load_state k := by
  show lookupAssoc (ms.save_outcome p sfx d).states k = lookupAssoc ms.states k
  rw [save_outcome_states]

theorem load_state_foldl_save_outcome (d : OutcomeData) (k : String) :
    ∀ (l : List (List String × String)) (ms : MemoryStore),
      (l.foldl (fun st pr => st.save_outcome (joinSlash pr.1) (some pr.2) d) ms).load_state k
        = ms.load_state k := by
  intro l
  induction l with
  | nil => intro ms; rfl
  | cons p l ih =>
    intro ms
    rw [List.foldl_cons, ih]
    exact load_state_save_outcome _ _ _ _ _

theorem apply_action_stored_state (db : CardDB) (sess : GameSession) (st : LorcanaState)
    (id : String) (e : Edge)
    (hload : sess.store.load_state sess.current_key = some st)
    (hfind : (canEdges st.graph).find? (fun e2 => e2.action_id.getD "" == id) = some e) :
    ∃ s2, GameSession.apply_action db sess id = some (true, s2) ∧
      s2.current_key = sess.current_key ++ "/" ++ id ∧
      s2.store.load_state s2.current_key =
        some (execute_action db st (e.action_type.getD "") e.src e.dst []) := by
  simp only [GameSession.apply_action, hload, hfind]
  refine ⟨_, rfl, rfl, ?_⟩
  cases hg : nodeStrAttr (execute_action db st (e.action_type.getD "") e.src e.dst []).graph
      "game" Node.game_over "0" == "1" with
  | false =>
    rw [if_neg Bool.false_ne_true]
    exact load_state_save_state_self _ _ _
  | true =>
    rw [if_pos rfl]
    cases hsp : find_seed_path (splitSlash (sess.current_key ++ "/" ++ id)) with
    | none =>
      exact (load_state_save_outcome _ _ _ _ _).trans (load_state_save_state_self _ _ _)
    | some sp =>
      exact (load_state_foldl_save_outcome _ _ _ _).trans
        ((load_state_save_outcome _ _ _ _ _).trans (load_state_save_state_self _ _ _))

/-- C9: when the current state has no action edge carrying the requested
id, `GameSession.apply_action` returns `false` together with the very
session it was given (same store, same current key: nothing mutates),
and `apply_action_at_path` signals the raised exception
`Action <id> not found in parent state`; when a matching edge exists,
the session apply completes with the extended key. -/
theorem c9_not_found_leaves_state_unchanged
    (db : CardDB) (sess : GameSession) (st : LorcanaState)
    (fs : FileStore) (path : List String) (pst : LorcanaState) (id : String)
    (hload : sess.store.load_state sess.current_key = some st) :
    ((∀ e ∈ canEdges st.graph, ¬ e.action_id.getD "" = id) →
      GameSession.apply_action db sess id = some (false, sess)) ∧
    ((∃ e ∈ canEdges st.graph, e.action_id.getD "" = id) →
      ∃ sess2, GameSession.apply_action db sess id = some (true, sess2) ∧
        sess2.current_key = sess.current_key ++ "/" ++ id) ∧
    (fs.state_exists path = false →
     path.dropLast ≠ path →
     fs.state_exists path.dropLast = true →
     fs.load_state path.dropLast = some pst →
     (∀ e ∈ canEdges pst.graph, ¬ e.action_id.getD "" = path.getLastD "") →
     apply_action_at_path db fs path =
       Except.error ("Action " ++ path.getLastD "" ++ " not found in parent state")) := by
  refine ⟨?_, ?_, ?_⟩
  · intro hno
    have hfind : (canEdges st.graph).find? (fun e => e.action_id.getD "" == id) = none := by
      rw [List.find?_eq_none]
      intro e he
      simpa using hno e he
    simp only [GameSession.apply_action, hload, hfind]
  · rintro ⟨e, he, heq⟩
    have hsome :
        ((canEdges st.graph).find? (fun e2 => e2.action_id.getD "" == id)).isSome = true := by
      rw [List.find?_isSome]
      refine ⟨e, he, ?_⟩
      simpa using heq
    obtain ⟨e1, hfind⟩ := Option.isSome_iff_exists.mp hsome
    obtain ⟨sess2, ha, hk, _⟩ := apply_action_stored_state db sess st id e1 hload hfind
    exact ⟨sess2, ha, hk⟩
  · intro hnotex hne hpex hpload hno
    have hfind : (canEdges pst.graph).find?
        (fun e => e.action_id.getD "" == path.getLast?.getD "") = none := by
      rw [List.find?_eq_none]
      intro e he
      have hne2 := hno e he
      rw [List.getLastD_eq_getLast?] at hne2
      simpa using hne2
    simp [apply_action_at_path, applyAtPathCore, hnotex, hpex, hpload, hfind]

/-- C9 witness: a session over a state without action edges rejects an
unknown action id unchanged, and the file-backed apply raises for a
child of a stored parent state without action edges. -/
theorem c9_not_found_leaves_state_unchanged_witness :
    GameSession.apply_action testDb c9Session "zz" = some (false, c9Session) ∧
    apply_action_at_path testDb c9FileStore ["seed0000", "zz"] =
      Except.error "Action zz not found in parent state" := by
  have h := c9_not_found_leaves_state_unchanged testDb c9Session c6State c9FileStore
    ["seed0000", "zz"] c6State "zz" rfl
  refine ⟨h.1 (by decide), ?_⟩
  exact h.2.2 rfl (by decide) rfl rfl (by decide)

theorem foldl_ability_skip (c : String) (turn : Int) :
    ∀ (l : List (Option String)) (G : Graph),
      (∀ a ∈ l, a ≠ some "Rush" ∧ a ≠ some "Evasive") →
      l.foldl
        (fun g keyword =>
          if keyword == some "Rush" then create_ability g c "rush" turn
          else if keyword == some "Evasive" then create_ability g c "evasive" turn
          else g) G = G := by
  intro l
  induction l with
  | nil => intro G _; rfl
  | cons a l ih =>
    intro G h
    have ha := h a (List.mem_cons_self a l)
    have ha1 : (a == some "Rush") = false := beq_eq_false_iff_ne.mpr ha.1
    have ha2 : (a == some "Evasive") = false := beq_eq_false_iff_ne.mpr ha.2
    simp only [List.foldl_cons]
    rw [ha1, ha2, if_neg Bool.false_ne_true, if_neg Bool.false_ne_true]
    exact ih G (fun a2 hm => h a2 (List.mem_cons_of_mem _ hm))

theorem create_printed_abilities_id (G : Graph) (c : String) (cd : CardData) (turn : Int)
    (h : ∀ a ∈ cd.abilities, a ≠ some "Rush" ∧ a ≠ some "Evasive") :
    create_printed_abilities G c cd turn = G :=
  foldl_ability_skip c turn cd.abilities G h

/-- C10: `GameSession.apply_action` invokes `execute_action` with empty
metadata, so two matched action edges agreeing on action type, source
and destination (such as the plain and `exerted` play variants of a
Bodyguard card) store the very same resulting state; and `execute_play`
marks the played character exerted exactly when the forwarded metadata
carries a truthy `exerted` entry, so under the session apply the card
always enters play with `exerted = "0"` (only `apply_action_at_path`
forwards the collected edge metadata). -/
theorem c10_session_apply_drops_metadata
    (db : CardDB) (sess : GameSession) (st : LorcanaState) (id1 id2 : String) (e1 e2 : Edge)
    (hload : sess.store.load_state sess.current_key = some st)
    (h1 : (canEdges st.graph).find? (fun e => e.action_id.getD "" == id1) = some e1)
    (h2 : (canEdges st.graph).find? (fun e => e.action_id.getD "" == id2) = some e2)
    (ht : e1.action_type = e2.action_type) (hs : e1.src = e2.src) (hd : e1.dst = e2.dst) :
    (∃ s1, GameSession.apply_action db sess id1 = some (true, s1) ∧
       s1.store.load_state s1.current_key =
         some (execute_action db st (e1.action_type.getD "") e1.src e1.dst [])) ∧
    (∃ s2, GameSession.apply_action db sess id2 = some (true, s2) ∧
       s2.store.load_state s2.current_key =
         some (execute_action db st (e1.action_type.getD "") e1.src e1.dst [])) ∧
    (∀ (s : LorcanaState) (f t : String) (md : List (String × String))
       (ctx : GameCtx) (nd : Node),
       get_game_context s.graph = some ctx →
       f ≠ ctx.player →
       (get_card_data db s.graph f).ctype ≠ "action" →
       (∀ a ∈ (get_card_data db s.graph f).abilities,
         a ≠ some "Rush" ∧ a ≠ some "Evasive") →
       s.graph.getNode f = some nd →
       (execute_play db s f t md).graph.getNode f =
         some { nd with
                  zone := some "play"
                  exerted := some (if truthyOpt (lookupMeta md "exerted") then "1" else "0")
                  entered_play := some ctx.current_turn }) := by
  refine ⟨?_, ?_, ?_⟩
  · obtain ⟨s1, ha, _, hb⟩ := apply_action_stored_state db sess st id1 e1 hload h1
    exact ⟨s1, ha, hb⟩
  · obtain ⟨s2, ha, _, hb⟩ := apply_action_stored_state db sess st id2 e2 hload h2
    rw [← ht, ← hs, ← hd] at hb
    exact ⟨s2, ha, hb⟩
  · intro s f t md ctx nd hctx hfp hctype hab hnd
    have hzb : ((get_card_data db s.graph f).ctype == "action") = false :=
      beq_eq_false_iff_ne.mpr hctype
    simp [execute_play, hctx, hzb, LorcanaState.move_card]
    rw [create_printed_abilities_id _ _ _ _ hab, getNode_updateNode, if_pos rfl,
      getNode_updateNode, if_neg hfp, getNode_updateNode, if_pos rfl, hnd]
    rfl

/-- C10 witness: in the session over the Bodyguard play state, action
ids `1` (plain play) and `2` (the `exerted` metadata variant) store the
same resulting state, and forwarding a truthy `exerted` metadata entry
to `execute_play` is what would have put the card into play exerted. -/
theorem c10_session_apply_drops_metadata_witness :
    (∃ s1, GameSession.apply_action testDb c10Session "1" = some (true, s1) ∧
       s1.store.load_state s1.current_key =
         some (execute_action testDb
           { c2State with graph := compute_all testDb c2State.graph }
           "can_play" "p1.simba_protective_cub.a" "p1" [])) ∧
    (∃ s2, GameSession.apply_action testDb c10Session "2" = some (true, s2) ∧
       s2.store.load_state s2.current_key =
         some (execute_action testDb
           { c2State with graph := compute_all testDb c2State.graph }
           "can_play" "p1.simba_protective_cub.a" "p1" [])) ∧
    (execute_play testDb { c2State with graph := compute_all testDb c2State.graph }
        "p1.simba_protective_cub.a" "p1" [("exerted", "True")]).graph.getNode
        "p1.simba_protective_cub.a" =
      some { characterNode "simba_protective_cub" "0" 0 (-1) "hand" with
               zone := some "play", exerted := some "1", entered_play := some 1 } := by
  have h := c10_session_apply_drops_metadata testDb c10Session
    { c2State with graph := compute_all testDb c2State.graph } "1" "2"
    { src := "p1.simba_protective_cub.a", dst := "p1", action_type := some "can_play"
      action_id := some "1", description := some "play:p1.simba_protective_cub.a" }
    { src := "p1.simba_protective_cub.a", dst := "p1", action_type := some "can_play"
      action_id := some "2", description := some "play:p1.simba_protective_cub.a:exerted" }
    rfl (by decide) (by decide) rfl rfl rfl
  refine ⟨h.1, h.2.1, ?_⟩
  exact h.2.2 { c2State with graph := compute_all testDb c2State.graph }
    "p1.simba_protective_cub.a" "p1" [("exerted", "True")]
    { player := "p1", opponent := "p2", current_turn := 1 }
    (characterNode "simba_protective_cub" "0" 0 (-1) "hand")
    (by decide) (by decide) (by decide) (by decide) (by decide)

end GraphTraj
